import Mathlib

/-!
Verification development for the artifact identity & classpath reconciliation
engine of the build-scripts repository (source files: make_cassandra_bento.py,
bento_reboot.py, bento_classpath.py).

The Python code is shallowly embedded: pure helpers become Lean functions on
String / List Char; the library directory mutated by the swap code becomes an
association list of file names to entries, threaded explicitly; every Python
assert or raising operation becomes an Except error.  The regular expressions
of the source are embedded as explicit backtracking matchers that follow
Python's leftmost / greedy / ordered-alternation semantics.
-/

namespace BuildScripts

/-- Errors raised by the embedded scripts.  Each constructor corresponds to one
assert or raising call site in the Python source. -/
inductive PErr where
  /-- assert in `_get_jar_project_name`: residual still ends in `jar`. -/
  | unparsable (residual : String)
  /-- assert in `_find_bento_tgz`: no bento tgz files at all. -/
  | noArchiveFound
  /-- assert in `_find_bento_tgz`: a listed tgz does not match `p_bento`. -/
  | regexMismatch (f : String)
  /-- assert False in `_find_bento_tgz`: no tgz with the requested version. -/
  | versionNotFound (v : String)
  /-- assert in `_get_locally_built_jar_for_target`: zero matches. -/
  | artifactNotFound
  /-- assert in `_get_locally_built_jar_for_target`: more than one match. -/
  | ambiguousArtifact
  /-- assert in `_get_locally_built_jar_for_target`: dirpath basename empty. -/
  | emptyDirpath
  /-- assert in `get_classpath_from_maven`: marker seen after dependencies set. -/
  | markerReentered
  /-- assert in `get_classpath_from_maven`: dependencies already set when a
  line was expected to be the classpath line. -/
  | expectInvariant
  /-- assert in `get_classpath_from_maven`: line after marker is a log line. -/
  | logLineAfterMarker (l : String)
  /-- assert in `get_classpath_from_maven`: no dependencies found at the end. -/
  | noMarkerFound
  /-- assert in `_backup_bento_jar`: jar is a symlink but no backup file. -/
  | missingBackup (b : String)
  /-- `os.rename` raises: source path does not exist. -/
  | renameSourceMissing (j : String)
  /-- assert in `_symlink_local_jar_to_bento`: destination still a file. -/
  | destinationExists (j : String)
  /-- `os.symlink` raises: destination name exists (even as dangling link). -/
  | symlinkTargetExists (j : String)
  /-- `shutil.copyfile` onto a dangling symlink writes through the link to a
  path outside the library directory; that effect is outside this model, and
  the branch is unreachable in every run considered here. -/
  | copyThroughLink (j : String)
  /-- assert in `_update_added_jars`: project already among the added jars. -/
  | addedTwice (j : String)
  /-- Python attribute lookup failure on a module object. -/
  | attributeError (a : String)
  deriving DecidableEq, Repr

/-! ## Character classes and small string utilities (Python semantics) -/

/-- Python `\d` over ASCII input. -/
def isDigitC (c : Char) : Bool := c.isDigit

/-- Python `\w` over ASCII input: letters, digits and underscore. -/
def isWordC (c : Char) : Bool := c.isAlphanum || c = '_'

/-- Python `s.endswith(t)`. -/
def py_endswith (s t : String) : Bool := t.toList.isSuffixOf s.toList

/-- Python `s.startswith(t)`. -/
def py_startswith (s t : String) : Bool := t.toList.isPrefixOf s.toList

/-- Python `s.find(t) != -1`, i.e. substring containment. -/
def containsSub (s t : String) : Bool :=
  s.toList.tails.any (fun suf => t.toList.isPrefixOf suf)

/-- Python `os.path.basename`: everything after the last `/`. -/
def py_basename (p : String) : String :=
  String.mk (p.toList.foldl (fun acc c => if c = '/' then [] else acc ++ [c]) [])

/-- Python `os.path.join(d, f)` for a directory path without trailing slash. -/
def py_join (d f : String) : String := d ++ "/" ++ f

/-- Python `s.replace(pat, rep)`: replace ALL non-overlapping occurrences,
scanning left to right.  Fuel is the length of the remaining input. -/
def replaceAllAux (pat rep : List Char) : Nat → List Char → List Char
  | 0, s => s
  | _fuel + 1, [] => []
  | fuel + 1, s@(c :: rest) =>
    if pat ≠ [] ∧ pat.isPrefixOf s then
      rep ++ replaceAllAux pat rep fuel (s.drop pat.length)
    else
      c :: replaceAllAux pat rep fuel rest

/-- Python `s.replace(pat, rep)`. -/
def py_replace (s pat rep : String) : String :=
  String.mk (replaceAllAux pat.toList rep.toList s.toList.length s.toList)

/-! ## The `p_jar` regex of `_get_jar_project_name`

Source (make_cassandra_bento.py, line 468):

  `p_jar = re.compile(r'-\d+(\.\d+)+(-tests|\.Final|-\d+|\w|-GA|\.GA|\.CR2|-M\d+)?\.jar')`

and `root_name = p_jar.sub('', jar_name)`.

The matcher below enumerates candidate remainders in exactly Python's
backtracking preference order (greedy repetition: longest first; ordered
alternation; optional group: present before absent) and takes the first
remainder for which the trailing literal `.jar` succeeds. -/

/-- Remainders after consuming `\d+`, greedy preference order
(longest consumption first). -/
def digitsPlus (s : List Char) : List (List Char) :=
  let k := (s.takeWhile isDigitC).length
  (List.range k).map (fun i => s.drop (k - i))

/-- Remainder after consuming `\.\d+` once (the inner `\d+` options). -/
def dotDigits (s : List Char) : List (List Char) :=
  match s with
  | '.' :: rest => digitsPlus rest
  | _ => []

/-- Remainders after consuming `(\.\d+)+`, preference order of a greedy
backtracking engine: within a repetition digits are greedy, and continuing
with one more repetition is preferred over stopping. -/
def dotDigitsPlusAux : Nat → List Char → List (List Char)
  | 0, _ => []
  | fuel + 1, s =>
    (dotDigits s).flatMap (fun r => dotDigitsPlusAux fuel r ++ [r])

/-- Remainders after `(\.\d+)+` starting at `s`. -/
def dotDigitsPlus (s : List Char) : List (List Char) :=
  dotDigitsPlusAux s.length s

/-- Remainders after a literal. -/
def litRemainder (lit : List Char) (s : List Char) : List (List Char) :=
  if lit.isPrefixOf s then [s.drop lit.length] else []

/-- Remainders after the optional qualifier group
`(-tests|\.Final|-\d+|\w|-GA|\.GA|\.CR2|-M\d+)?`, alternatives in source
order, with the empty (absent) case last. -/
def qualAlts (s : List Char) : List (List Char) :=
  litRemainder "-tests".toList s ++
  litRemainder ".Final".toList s ++
  (match s with | '-' :: r => digitsPlus r | _ => []) ++
  (match s with
   | c :: r => if isWordC c then [r] else []
   | [] => []) ++
  litRemainder "-GA".toList s ++
  litRemainder ".GA".toList s ++
  litRemainder ".CR2".toList s ++
  (match s with | '-' :: 'M' :: r => digitsPlus r | _ => []) ++
  [s]

/-- Attempt to match the whole `p_jar` pattern at the head of `s`; returns the
remainder after the match chosen by Python's backtracking order. -/
def matchJarAt (s : List Char) : Option (List Char) :=
  match s with
  | '-' :: r =>
    ((digitsPlus r).flatMap (fun r1 =>
      (dotDigitsPlus r1).flatMap (fun r2 =>
        (qualAlts r2).filterMap (fun r3 =>
          if ".jar".toList.isPrefixOf r3 then some (r3.drop 4) else none)))).head?
  | _ => none

/-- `p_jar.sub('', s)`: delete every match, scanning left to right and
resuming after the end of each match.  Fuel is the input length; a match
always consumes at least one character. -/
def subJarAux : Nat → List Char → List Char
  | 0, s => s
  | _fuel + 1, [] => []
  | fuel + 1, s@(c :: rest) =>
    match matchJarAt s with
    | some r => subJarAux fuel r
    | none => c :: subJarAux fuel rest

/-- `p_jar.sub('', name)` on a string. -/
def stripVersion (name : String) : String :=
  String.mk (subJarAux name.toList.length name.toList)

/-- `_get_jar_project_name` restricted to a bare file name (the source applies
`os.path.basename` first; see `get_jar_project_name`).  `stripVersion
jar_name` is the source's `root_name`. -/
def jar_project_name_of_name (jar_name : String) : Except PErr String :=
  if py_endswith (stripVersion jar_name) "jar" then
    .error (.unparsable (stripVersion jar_name))
  else .ok (stripVersion jar_name)

instance {α : Type} [DecidableEq α] : DecidableEq (Except PErr α) := fun a b =>
  match a, b with
  | .ok x, .ok y => decidable_of_iff (x = y) (by simp)
  | .error e, .error f => decidable_of_iff (e = f) (by simp)
  | .ok _, .error _ => isFalse (by simp)
  | .error _, .ok _ => isFalse (by simp)

/-- `_get_jar_project_name` (make_cassandra_bento.py, lines 466-474). -/
def get_jar_project_name (jar_full_path : String) : Except PErr String :=
  jar_project_name_of_name (py_basename jar_full_path)

/-! ## C4: when the identity function succeeds and fails -/

/-- C4 counterexample: the file name `foo-jar-1.0.0.jar` carries a perfectly
recognizable version suffix (`-1.0.0.jar`, which the regex does strip), yet
`_get_jar_project_name` does not succeed on it: the stripped residual
`foo-jar` ends in `jar`, so the defensive assert fires.  This refutes the
claim that the function fails only on names without a recognizable version
suffix. -/
theorem identity_fails_despite_recognizable_suffix :
    stripVersion "foo-jar-1.0.0.jar" = "foo-jar" ∧
    stripVersion "foo-jar-1.0.0.jar" ≠ "foo-jar-1.0.0.jar" ∧
    get_jar_project_name "foo-jar-1.0.0.jar" = Except.error (.unparsable "foo-jar") := by
  refine ⟨by decide, by decide, by decide⟩

/-- C4 amended: `_get_jar_project_name` succeeds exactly when the residual
obtained by deleting every version/qualifier-suffix match does not end in
`jar`; on success it returns that residual (which therefore never ends in
`jar`), and it fails with the unparsable-name assert otherwise — in
particular also on names that do carry a recognizable version suffix but
whose base name itself ends in `jar`. -/
theorem identity_succeeds_iff_residual_not_jar (p r : String) :
    get_jar_project_name p = Except.ok r ↔
      (r = stripVersion (py_basename p) ∧ py_endswith r "jar" = false) := by
  unfold get_jar_project_name jar_project_name_of_name
  cases h : py_endswith (stripVersion (py_basename p)) "jar" with
  | false =>
    simp only [h, Bool.false_eq_true, if_false, Except.ok.injEq]
    constructor
    · intro he
      exact ⟨he.symm, by rw [he] at h; exact h⟩
    · intro hc
      exact hc.1.symm
  | true =>
    simp only [h, if_true]
    constructor
    · intro he
      cases he
    · rintro ⟨rfl, hf⟩
      rw [h] at hf
      cases hf

/-- Witness for `identity_succeeds_iff_residual_not_jar` at a concrete
name. -/
theorem identity_succeeds_iff_witness :
    get_jar_project_name "guava-14.0.1.jar" = Except.ok "guava" :=
  (identity_succeeds_iff_residual_not_jar "guava-14.0.1.jar" "guava").mpr
    ⟨by decide, by decide⟩

/-! ## C5: idempotence of the identity function -/

/-- C5 counterexample: `a-1.0-2.0.0.jar.jarb-3.0.0.jar` ends in a recognizable
version suffix (`-3.0.0.jar`) and the identity function succeeds on it, but
deleting the inner match `-2.0.0.jar` glues `a-1.0` to `.jarb`, creating a
fresh suffix match, so applying the function to its own output gives `ab`,
not the first output `a-1.0.jarb`: idempotence fails. -/
theorem identity_not_idempotent :
    stripVersion "a-1.0-2.0.0.jar.jarb-3.0.0.jar" ≠ "a-1.0-2.0.0.jar.jarb-3.0.0.jar" ∧
    jar_project_name_of_name "a-1.0-2.0.0.jar.jarb-3.0.0.jar" = Except.ok "a-1.0.jarb" ∧
    jar_project_name_of_name "a-1.0.jarb" = Except.ok "ab" ∧
    jar_project_name_of_name "a-1.0.jarb" ≠
      jar_project_name_of_name "a-1.0-2.0.0.jar.jarb-3.0.0.jar" := by
  refine ⟨by decide, by decide, by decide, by decide⟩

/-- C5 amended: the identity function is pure and deterministic, and it is
idempotent on every file name whose stripped residual contains no further
version-suffix match (re-stripping the residual changes nothing); stripping
can in general create a fresh match by gluing text around a deleted inner
match, and on such names idempotence fails. -/
theorem identity_idempotent_of_stable (f r : String)
    (h1 : jar_project_name_of_name f = Except.ok r)
    (h2 : stripVersion r = r) :
    jar_project_name_of_name r = jar_project_name_of_name f := by
  unfold jar_project_name_of_name at h1 ⊢
  cases h : py_endswith (stripVersion f) "jar" with
  | true => rw [h] at h1; cases h1
  | false =>
    rw [h] at h1
    simp only [Bool.false_eq_true, if_false, Except.ok.injEq] at h1
    subst h1
    rw [h2, h]

/-- Witness for `identity_idempotent_of_stable` at `widgets-2.0.0.jar`. -/
theorem identity_idempotent_witness :
    jar_project_name_of_name "widgets-2.0.0.jar" = Except.ok "widgets" ∧
    stripVersion "widgets" = "widgets" ∧
    jar_project_name_of_name "widgets" = jar_project_name_of_name "widgets-2.0.0.jar" :=
  ⟨by decide, by decide,
    identity_idempotent_of_stable "widgets-2.0.0.jar" "widgets" (by decide) (by decide)⟩

/-! ## ArchiveSelector: `_find_bento_tgz`

Source: make_cassandra_bento.py lines 198-222 (bento_reboot.py lines 300-324
are an identical duplicate). -/

/-- `p_bento.match(f)`: anchored match of
`kiji-bento-(?P<name>\w+)-(?P<version>\d\.\d\.\d)-release\.tar\.gz`,
returning the `name` and `version` groups.  `re.match` only anchors at the
start, so trailing characters after the pattern are allowed.  `\w+` is
necessarily a maximal word-character run: stopping earlier would leave a word
character where the pattern requires `-`. -/
def p_bento_match (f : String) : Option (String × String) :=
  let cs := f.toList
  if "kiji-bento-".toList.isPrefixOf cs then
    let rest := cs.drop "kiji-bento-".length
    let w := rest.takeWhile isWordC
    match rest.drop w.length with
    | '-' :: d1 :: '.' :: d2 :: '.' :: d3 :: r3 =>
      if w ≠ [] ∧ (isDigitC d1 && isDigitC d2 && isDigitC d3) = true ∧
          "-release.tar.gz".toList.isPrefixOf r3 then
        some (String.mk w, String.mk [d1, '.', d2, '.', d3])
      else none
    | _ => none
  else none

/-- The `version` group of `p_bento.match`, when the match succeeds. -/
def bento_version_of (f : String) : Option String :=
  (p_bento_match f).map Prod.snd

/-- The listing filter of `_find_bento_tgz`:
`f.endswith('.tar.gz') and f.startswith('kiji-bento')`. -/
def is_bento_tgz (f : String) : Bool :=
  py_endswith f ".tar.gz" && py_startswith f "kiji-bento"

/-- Lexicographic code-point comparison on character lists: Python's `<=` on
`str` (for the ASCII file names handled here). -/
def lexLeChars : List Char → List Char → Bool
  | [], _ => true
  | _ :: _, [] => false
  | a :: as, b :: bs =>
    if a < b then true
    else if a = b then lexLeChars as bs
    else false

/-- Python `a <= b` on strings. -/
def py_str_le (a b : String) : Bool := lexLeChars a.toList b.toList

/-- Insert into an ascending list, Python-`sorted` order. -/
def orderedInsertPy (x : String) : List String → List String
  | [] => [x]
  | y :: ys => if py_str_le x y then x :: y :: ys else y :: orderedInsertPy x ys

/-- Python `sorted` on strings (ascending, code-point lexicographic),
implemented as insertion sort. -/
def pySorted (l : List String) : List String := l.foldr orderedInsertPy []

theorem lexLeChars_refl : ∀ as, lexLeChars as as = true := by
  intro as
  induction as with
  | nil => rfl
  | cons a as ih => simp [lexLeChars, lt_irrefl, ih]

theorem lexLeChars_total : ∀ as bs,
    lexLeChars as bs = true ∨ lexLeChars bs as = true := by
  intro as
  induction as with
  | nil => intro bs; left; rfl
  | cons a as ih =>
    intro bs
    cases bs with
    | nil => right; rfl
    | cons b bs =>
      by_cases hab : a < b
      · left; simp [lexLeChars, hab]
      · by_cases heq : a = b
        · subst heq
          rcases ih bs with h | h
          · left; simp [lexLeChars, lt_irrefl, h]
          · right; simp [lexLeChars, lt_irrefl, h]
        · have hba : b < a := by
            rcases lt_trichotomy a b with h | h | h
            · exact absurd h hab
            · exact absurd h heq
            · exact h
          right; simp [lexLeChars, hba]

theorem lexLeChars_trans : ∀ as bs cs, lexLeChars as bs = true →
    lexLeChars bs cs = true → lexLeChars as cs = true := by
  intro as
  induction as with
  | nil => intro bs cs _ _; rfl
  | cons a as ih =>
    intro bs cs h1 h2
    cases bs with
    | nil => simp [lexLeChars] at h1
    | cons b bs =>
      cases cs with
      | nil => simp [lexLeChars] at h2
      | cons c cs =>
        by_cases hab : a < b
        · by_cases hbc : b < c
          · simp [lexLeChars, lt_trans hab hbc]
          · by_cases hbc2 : b = c
            · subst hbc2; simp [lexLeChars, hab]
            · simp [lexLeChars, hbc, hbc2] at h2
        · by_cases hab2 : a = b
          · subst hab2
            simp only [lexLeChars, lt_irrefl, if_false, if_pos rfl] at h1
            by_cases hac : a < c
            · simp [lexLeChars, hac]
            · by_cases hac2 : a = c
              · subst hac2
                simp only [lexLeChars, lt_irrefl, if_false, if_pos rfl] at h2 ⊢
                exact ih bs cs h1 h2
              · simp [lexLeChars, hac, hac2] at h2
          · simp [lexLeChars, hab, hab2] at h1

theorem lexLeChars_antisymm : ∀ as bs, lexLeChars as bs = true →
    lexLeChars bs as = true → as = bs := by
  intro as
  induction as with
  | nil =>
    intro bs _ h2
    cases bs with
    | nil => rfl
    | cons b bs => simp [lexLeChars] at h2
  | cons a as ih =>
    intro bs h1 h2
    cases bs with
    | nil => simp [lexLeChars] at h1
    | cons b bs =>
      by_cases hab : a < b
      · have h2' : ¬ b < a := lt_asymm hab
        have h2'' : ¬ b = a := (ne_of_lt hab).symm
        simp [lexLeChars, h2', h2''] at h2
      · by_cases heq : a = b
        · subst heq
          simp only [lexLeChars, lt_irrefl, if_false, if_pos rfl] at h1 h2
          rw [ih bs h1 h2]
        · simp [lexLeChars, hab, heq] at h1

theorem string_toList_inj (a b : String) (h : a.toList = b.toList) : a = b := by
  cases a with
  | mk da =>
    cases b with
    | mk db =>
      simp only [String.toList] at h
      simp [h]

theorem py_str_le_refl (a : String) : py_str_le a a = true :=
  lexLeChars_refl a.toList

theorem py_str_le_total (a b : String) :
    py_str_le a b = true ∨ py_str_le b a = true :=
  lexLeChars_total a.toList b.toList

theorem py_str_le_trans (a b c : String) (h1 : py_str_le a b = true)
    (h2 : py_str_le b c = true) : py_str_le a c = true :=
  lexLeChars_trans a.toList b.toList c.toList h1 h2

theorem py_str_le_antisymm (a b : String) (h1 : py_str_le a b = true)
    (h2 : py_str_le b a = true) : a = b :=
  string_toList_inj a b (lexLeChars_antisymm a.toList b.toList h1 h2)

theorem mem_orderedInsertPy (z x : String) : ∀ l : List String,
    z ∈ orderedInsertPy x l ↔ z = x ∨ z ∈ l := by
  intro l
  induction l with
  | nil => simp [orderedInsertPy]
  | cons y ys ih =>
    unfold orderedInsertPy
    by_cases h : py_str_le x y
    · simp [h]
    · simp only [h, Bool.false_eq_true, if_false, List.mem_cons, ih]
      tauto

theorem perm_orderedInsertPy (x : String) : ∀ l : List String,
    (orderedInsertPy x l).Perm (x :: l) := by
  intro l
  induction l with
  | nil => exact List.Perm.refl _
  | cons y ys ih =>
    unfold orderedInsertPy
    by_cases h : py_str_le x y
    · simp [h]
    · simp only [h, Bool.false_eq_true, if_false]
      exact (ih.cons y).trans (List.Perm.swap x y ys)

theorem pairwise_orderedInsertPy (x : String) : ∀ l : List String,
    l.Pairwise (fun a b => py_str_le a b = true) →
    (orderedInsertPy x l).Pairwise (fun a b => py_str_le a b = true) := by
  intro l
  induction l with
  | nil => intro _; simp [orderedInsertPy]
  | cons y ys ih =>
    intro hp
    rcases List.pairwise_cons.mp hp with ⟨hy, hys⟩
    unfold orderedInsertPy
    by_cases h : py_str_le x y
    · simp only [h, if_true]
      refine List.pairwise_cons.mpr ⟨?_, hp⟩
      intro z hz
      rcases List.mem_cons.mp hz with rfl | hzy
      · exact h
      · exact py_str_le_trans x y z h (hy z hzy)
    · simp only [h, Bool.false_eq_true, if_false]
      refine List.pairwise_cons.mpr ⟨?_, ih hys⟩
      intro z hz
      rcases (mem_orderedInsertPy z x ys).mp hz with rfl | hzy
      · rcases py_str_le_total z y with h1 | h1
        · exact absurd h1 h
        · exact h1
      · exact hy z hzy

theorem pySorted_perm : ∀ l : List String, (pySorted l).Perm l := by
  intro l
  induction l with
  | nil => exact List.Perm.refl _
  | cons x xs ih =>
    have : pySorted (x :: xs) = orderedInsertPy x (pySorted xs) := rfl
    rw [this]
    exact (perm_orderedInsertPy x (pySorted xs)).trans (ih.cons x)

theorem pySorted_pairwise : ∀ l : List String,
    (pySorted l).Pairwise (fun a b => py_str_le a b = true) := by
  intro l
  induction l with
  | nil => simp [pySorted]
  | cons x xs ih => exact pairwise_orderedInsertPy x (pySorted xs) ih

/-- The requested-version loop of `_find_bento_tgz`: walk the listing in
order, assert that each name matches `p_bento`, and return the first whose
version group equals the requested version; `assert False` at the end. -/
def version_scan (v : String) : List String → Except PErr String
  | [] => .error (.versionNotFound v)
  | f :: rest =>
    match p_bento_match f with
    | none => .error (.regexMismatch f)
    | some nv => if nv.2 = v then .ok f else version_scan v rest

/-- `_find_bento_tgz(bento_version_or_none)`, with the directory listing as
input.  `sorted(all_bento_tgz)[-1]` is the last element of the ascending
sort. -/
def find_bento_tgz (files : List String) (version? : Option String) :
    Except PErr String :=
  let all_bento_tgz := files.filter is_bento_tgz
  if all_bento_tgz.length = 0 then .error .noArchiveFound
  else
    match version? with
    | none => .ok ((pySorted all_bento_tgz).getLastD "")
    | some v => version_scan v all_bento_tgz

/-- The last element of an ascending list bounds every member. -/
theorem sorted_getLastD_max :
    ∀ (l : List String) (d : String),
      l.Pairwise (fun a b => py_str_le a b = true) →
      ∀ x ∈ l, py_str_le x (l.getLastD d) = true := by
  intro l
  induction l with
  | nil => intro d _ x hx; cases hx
  | cons y ys ih =>
    intro d hs x hx
    rw [List.getLastD_cons]
    rcases List.pairwise_cons.mp hs with ⟨hy, hys⟩
    rcases List.mem_cons.mp hx with rfl | hmem
    · cases ys with
      | nil => simp [List.getLastD, py_str_le_refl]
      | cons z zs =>
        have hyz : py_str_le x z = true := hy z (by simp)
        have hz : py_str_le z ((z :: zs).getLastD x) = true :=
          ih x hys z (by simp)
        exact py_str_le_trans x z _ hyz hz
    · exact ih y hys x hmem

/-- The last element of a nonempty list is a member. -/
theorem getLastD_mem : ∀ (l : List String) (d : String), l ≠ [] →
    l.getLastD d ∈ l := by
  intro l
  induction l with
  | nil => intro d h; cases h rfl
  | cons y ys ih =>
    intro d _
    rw [List.getLastD_cons]
    cases ys with
    | nil => simp [List.getLastD]
    | cons z zs => exact List.mem_cons_of_mem y (ih y (by simp))

/-- C6: with no requested version, `_find_bento_tgz` returns the greatest
candidate file name under lexicographic string comparison, and its result is
invariant under permutation of the directory listing (it depends only on the
listing's contents). -/
theorem find_bento_tgz_latest (files files' : List String)
    (hne : files.filter is_bento_tgz ≠ [])
    (hperm : files.Perm files') :
    (∃ m, find_bento_tgz files none = .ok m ∧
      m ∈ files.filter is_bento_tgz ∧
      ∀ x ∈ files.filter is_bento_tgz, py_str_le x m = true) ∧
    find_bento_tgz files none = find_bento_tgz files' none := by
  have key : ∀ gs : List String, gs.filter is_bento_tgz ≠ [] →
      ∃ m, find_bento_tgz gs none = .ok m ∧
        m ∈ gs.filter is_bento_tgz ∧
        ∀ x ∈ gs.filter is_bento_tgz, py_str_le x m = true := by
    intro gs hgs
    have hlen : ¬ (gs.filter is_bento_tgz).length = 0 := by
      intro h0
      exact hgs (List.length_eq_zero.mp h0)
    have hsorted := pySorted_pairwise (gs.filter is_bento_tgz)
    have hpermS : (pySorted (gs.filter is_bento_tgz)).Perm
        (gs.filter is_bento_tgz) :=
      pySorted_perm (gs.filter is_bento_tgz)
    have hSne : pySorted (gs.filter is_bento_tgz) ≠ [] := by
      intro h0
      rw [h0] at hpermS
      exact hgs hpermS.symm.eq_nil
    refine ⟨(pySorted (gs.filter is_bento_tgz)).getLastD "", ?_, ?_, ?_⟩
    · unfold find_bento_tgz
      simp only [hlen, if_false]
    · exact hpermS.mem_iff.mp (getLastD_mem _ "" hSne)
    · intro x hx
      exact sorted_getLastD_max _ "" hsorted x (hpermS.mem_iff.mpr hx)
  have hpermF : (files.filter is_bento_tgz).Perm (files'.filter is_bento_tgz) :=
    hperm.filter is_bento_tgz
  have hne' : files'.filter is_bento_tgz ≠ [] := by
    intro h0
    rw [h0] at hpermF
    exact hne hpermF.eq_nil
  obtain ⟨m, hm, hmem, hmax⟩ := key files hne
  obtain ⟨m', hm', hmem', hmax'⟩ := key files' hne'
  have h1 : py_str_le m m' = true := hmax' m (hpermF.mem_iff.mp hmem)
  have h2 : py_str_le m' m = true := hmax m' (hpermF.mem_iff.mpr hmem')
  have : m = m' := py_str_le_antisymm m m' h1 h2
  exact ⟨⟨m, hm, hmem, hmax⟩, by rw [hm, hm', this]⟩

/-- Witness for `find_bento_tgz_latest` on a concrete listing and one of its
permutations. -/
theorem find_bento_tgz_latest_witness :
    (["kiji-bento-alpha-1.2.0-release.tar.gz", "notes.txt",
        "kiji-bento-alpha-1.3.0-release.tar.gz"].filter is_bento_tgz ≠ [] ∧
      List.Perm
        ["kiji-bento-alpha-1.2.0-release.tar.gz", "notes.txt",
          "kiji-bento-alpha-1.3.0-release.tar.gz"]
        ["kiji-bento-alpha-1.3.0-release.tar.gz",
          "kiji-bento-alpha-1.2.0-release.tar.gz", "notes.txt"]) ∧
    ((∃ m, find_bento_tgz
        ["kiji-bento-alpha-1.2.0-release.tar.gz", "notes.txt",
          "kiji-bento-alpha-1.3.0-release.tar.gz"] none = .ok m ∧
        m ∈ ["kiji-bento-alpha-1.2.0-release.tar.gz", "notes.txt",
          "kiji-bento-alpha-1.3.0-release.tar.gz"].filter is_bento_tgz ∧
        ∀ x ∈ ["kiji-bento-alpha-1.2.0-release.tar.gz", "notes.txt",
          "kiji-bento-alpha-1.3.0-release.tar.gz"].filter is_bento_tgz,
            py_str_le x m = true) ∧
      find_bento_tgz
        ["kiji-bento-alpha-1.2.0-release.tar.gz", "notes.txt",
          "kiji-bento-alpha-1.3.0-release.tar.gz"] none =
      find_bento_tgz
        ["kiji-bento-alpha-1.3.0-release.tar.gz",
          "kiji-bento-alpha-1.2.0-release.tar.gz", "notes.txt"] none) :=
  ⟨⟨by decide, by decide⟩,
    find_bento_tgz_latest _ _ (by decide) (by decide)⟩

/-- C7: `_find_bento_tgz` fails with the no-archive assert on an empty
candidate listing; with a requested version it returns the unique matching
archive, and fails with the version-not-found assert when no candidate's
parsed version matches; on the listing
`[kiji-bento-alpha-1.2.0-release.tar.gz, kiji-bento-alpha-1.3.0-release.tar.gz]`
it selects `1.3.0` without a requested version, `1.2.0` on request `1.2.0`,
and fails on request `9.9.9`. -/
theorem find_bento_tgz_version_selection :
    (∀ (files : List String) (version? : Option String),
      files.filter is_bento_tgz = [] →
      find_bento_tgz files version? = .error .noArchiveFound) ∧
    (∀ (files : List String) (v m : String),
      (∀ f ∈ files.filter is_bento_tgz, (p_bento_match f).isSome = true) →
      m ∈ files.filter is_bento_tgz →
      bento_version_of m = some v →
      (∀ f ∈ files.filter is_bento_tgz, bento_version_of f = some v → f = m) →
      find_bento_tgz files (some v) = .ok m) ∧
    (∀ (files : List String) (v : String),
      files.filter is_bento_tgz ≠ [] →
      (∀ f ∈ files.filter is_bento_tgz, (p_bento_match f).isSome = true) →
      (∀ f ∈ files.filter is_bento_tgz, bento_version_of f ≠ some v) →
      find_bento_tgz files (some v) = .error (.versionNotFound v)) ∧
    (find_bento_tgz ["kiji-bento-alpha-1.2.0-release.tar.gz",
        "kiji-bento-alpha-1.3.0-release.tar.gz"] none =
      .ok "kiji-bento-alpha-1.3.0-release.tar.gz" ∧
     find_bento_tgz ["kiji-bento-alpha-1.2.0-release.tar.gz",
        "kiji-bento-alpha-1.3.0-release.tar.gz"] (some "1.2.0") =
      .ok "kiji-bento-alpha-1.2.0-release.tar.gz" ∧
     find_bento_tgz ["kiji-bento-alpha-1.2.0-release.tar.gz",
        "kiji-bento-alpha-1.3.0-release.tar.gz"] (some "9.9.9") =
      .error (.versionNotFound "9.9.9")) := by
  have scan_finds : ∀ (l : List String) (v m : String),
      (∀ f ∈ l, (p_bento_match f).isSome = true) →
      m ∈ l → bento_version_of m = some v →
      (∀ f ∈ l, bento_version_of f = some v → f = m) →
      version_scan v l = .ok m := by
    intro l
    induction l with
    | nil => intro v m _ hm; cases hm
    | cons f rest ih =>
      intro v m hall hm hv huniq
      obtain ⟨nv, hnv⟩ := Option.isSome_iff_exists.mp (hall f (by simp))
      unfold version_scan
      rw [hnv]
      by_cases hveq : nv.2 = v
      · have : f = m := huniq f (by simp) (by simp [bento_version_of, hnv, hveq])
        simp [hveq, this]
      · have hfm : f ≠ m := by
          intro hfm
          apply hveq
          rw [hfm] at hnv
          have : some nv.2 = some v := by
            rw [← hv]; simp [bento_version_of, hnv]
          exact Option.some.inj this
        have hmr : m ∈ rest := by
          rcases List.mem_cons.mp hm with rfl | h
          · exact absurd rfl hfm
          · exact h
        simp only [hveq, if_false]
        exact ih v m (fun g hg => hall g (List.mem_cons_of_mem f hg)) hmr hv
          (fun g hg => huniq g (List.mem_cons_of_mem f hg))
  have scan_missing : ∀ (l : List String) (v : String),
      (∀ f ∈ l, (p_bento_match f).isSome = true) →
      (∀ f ∈ l, bento_version_of f ≠ some v) →
      version_scan v l = .error (.versionNotFound v) := by
    intro l
    induction l with
    | nil => intro v _ _; rfl
    | cons f rest ih =>
      intro v hall hnone
      obtain ⟨nv, hnv⟩ := Option.isSome_iff_exists.mp (hall f (by simp))
      unfold version_scan
      rw [hnv]
      have hveq : ¬ nv.2 = v := by
        intro h
        exact hnone f (by simp) (by simp [bento_version_of, hnv, h])
      simp only [hveq, if_false]
      exact ih v (fun g hg => hall g (List.mem_cons_of_mem f hg))
        (fun g hg => hnone g (List.mem_cons_of_mem f hg))
  refine ⟨?_, ?_, ?_, by decide, by decide, by decide⟩
  · intro files version? hempty
    unfold find_bento_tgz
    rw [hempty]
    simp
  · intro files v m hall hm hv huniq
    unfold find_bento_tgz
    have hlen : ¬ (files.filter is_bento_tgz).length = 0 := by
      intro h0
      rw [List.length_eq_zero.mp h0] at hm
      cases hm
    simp only [hlen, if_false]
    exact scan_finds _ v m hall hm hv huniq
  · intro files v hne hall hnone
    unfold find_bento_tgz
    have hlen : ¬ (files.filter is_bento_tgz).length = 0 := by
      intro h0
      exact hne (List.length_eq_zero.mp h0)
    simp only [hlen, if_false]
    exact scan_missing _ v hall hnone

/-- Witness for `find_bento_tgz_version_selection`: the unique-version part
applied to a concrete listing. -/
theorem find_bento_tgz_version_selection_witness :
    find_bento_tgz ["kiji-bento-beta-2.0.1-release.tar.gz", "readme.md"]
      (some "2.0.1") = .ok "kiji-bento-beta-2.0.1-release.tar.gz" :=
  find_bento_tgz_version_selection.2.1
    ["kiji-bento-beta-2.0.1-release.tar.gz", "readme.md"] "2.0.1"
    "kiji-bento-beta-2.0.1-release.tar.gz"
    (by decide) (by decide) (by decide) (by decide)

/-! ## ArtifactLocator: `_get_locally_built_jar_for_target`

Source: make_cassandra_bento.py lines 253-287 (bento_reboot.py lines 355-388
are a duplicate up to one assert message).  The `os.walk` traversal is
embedded as a list of visited directories, each with its plain-file names. -/

/-- One directory visited by `os.walk`: its path and the plain files in it. -/
structure WalkDir where
  dirpath : String
  filenames : List String
  deriving DecidableEq, Repr

/-- Consume a maximal nonempty digit run (`\d+` followed by a non-digit
pattern element, so no shorter run can succeed). -/
def eatDigits1 (s : List Char) : Option (List Char) :=
  if (s.takeWhile isDigitC).length = 0 then none
  else some (s.drop (s.takeWhile isDigitC).length)

/-- Consume one expected character. -/
def expectChar (c : Char) : List Char → Option (List Char)
  | x :: r => if x = c then some r else none
  | [] => none

/-- `re.match(kiji_target + r'-(?P<version>\d+\.\d+\.\d+)-SNAPSHOT.jar', fname)`
as a Boolean test.  `re.match` anchors only at the start; the `.` before
`jar` is unescaped in the source and matches any character; `kiji_target` is
interpolated verbatim (the targets used contain no regex metacharacters, so
it behaves as a literal). -/
def p_local_jar_match (kiji_target fname : String) : Bool :=
  (Option.isSome (do
    let r0 ←
      if (kiji_target.toList ++ ['-']).isPrefixOf fname.toList
      then some (fname.toList.drop (kiji_target.toList.length + 1)) else none
    let r1 ← eatDigits1 r0
    let r2 ← expectChar '.' r1
    let r3 ← eatDigits1 r2
    let r4 ← expectChar '.' r3
    let r5 ← eatDigits1 r4
    let r6 ←
      if "-SNAPSHOT".toList.isPrefixOf r5
      then some (r5.drop "-SNAPSHOT".length) else none
    let r7 ← match r6 with | _ :: r => some r | [] => none
    if "jar".toList.isPrefixOf r7 then some r7 else none))

/-- The body of the walk loop for one visited directory: skip directories not
literally named `target`, and add each matching file's full path to the
`matching_jars` set (insertion-if-absent models `set.add`). -/
def walk_dir_step (kiji_target : String) (acc : List String) (d : WalkDir) :
    List String :=
  if py_basename d.dirpath = "target" then
    d.filenames.foldl (fun a f =>
      if p_local_jar_match kiji_target f then
        if py_join d.dirpath f ∈ a then a else a ++ [py_join d.dirpath f]
      else a) acc
  else acc

/-- The full set of matching jar paths collected by the walk. -/
def collect_local_jars (kiji_target : String) (walk : List WalkDir) :
    List String :=
  walk.foldl (walk_dir_step kiji_target) []

/-- The walk loop including the `assert os.path.split(dirpath)[1] != ''`
check executed for every visited directory. -/
def walk_collect (kiji_target : String) (walk : List WalkDir) :
    Except PErr (List String) :=
  walk.foldlM (fun acc d =>
    if py_basename d.dirpath = "" then .error .emptyDirpath
    else .ok (walk_dir_step kiji_target acc d)) []

/-- `_get_locally_built_jar_for_target(kiji_target)` over an explicit walk:
collect matches, then assert nonzero and assert unique. -/
def get_locally_built_jar_for_target (kiji_target : String)
    (walk : List WalkDir) : Except PErr String := do
  let matching_jars ← walk_collect kiji_target walk
  match matching_jars with
  | [] => .error .artifactNotFound
  | [j] => .ok j
  | _ :: _ :: _ => .error .ambiguousArtifact

/-- When no visited directory has an empty basename, the checked walk equals
the pure collection. -/
theorem walk_collect_ok (kiji_target : String) :
    ∀ (walk : List WalkDir) (acc : List String),
      (∀ d ∈ walk, py_basename d.dirpath ≠ "") →
      walk.foldlM (fun acc d =>
        if py_basename d.dirpath = "" then Except.error PErr.emptyDirpath
        else Except.ok (walk_dir_step kiji_target acc d)) acc =
      Except.ok (walk.foldl (walk_dir_step kiji_target) acc) := by
  intro walk
  induction walk with
  | nil => intro acc _; rfl
  | cons d ds ih =>
    intro acc h0
    have hd : ¬ py_basename d.dirpath = "" := h0 d (by simp)
    simp only [List.foldlM_cons, List.foldl_cons, hd, if_false]
    exact ih (walk_dir_step kiji_target acc d)
      (fun e he => h0 e (List.mem_cons_of_mem d he))

/-- C8: over a walk whose visited directories all have a nonempty basename,
the locator fails with the no-artifact assert when the collected match set is
empty, returns the jar when the match set is a singleton, and fails with the
ambiguity assert when two or more distinct matches were collected; in
particular two matching files in two different `target` directories are
ambiguous, and a matching file inside a directory not literally named
`target` is never found. -/
theorem locate_local_jar_cases :
    (∀ (t : String) (walk : List WalkDir),
      (∀ d ∈ walk, py_basename d.dirpath ≠ "") →
      collect_local_jars t walk = [] →
      get_locally_built_jar_for_target t walk = .error .artifactNotFound) ∧
    (∀ (t : String) (walk : List WalkDir) (j : String),
      (∀ d ∈ walk, py_basename d.dirpath ≠ "") →
      collect_local_jars t walk = [j] →
      get_locally_built_jar_for_target t walk = .ok j) ∧
    (∀ (t : String) (walk : List WalkDir) (j1 j2 : String) (rest : List String),
      (∀ d ∈ walk, py_basename d.dirpath ≠ "") →
      collect_local_jars t walk = j1 :: j2 :: rest →
      get_locally_built_jar_for_target t walk = .error .ambiguousArtifact) ∧
    (∀ (t d1 d2 f1 f2 : String),
      py_basename d1 = "target" → py_basename d2 = "target" →
      p_local_jar_match t f1 = true → p_local_jar_match t f2 = true →
      py_join d1 f1 ≠ py_join d2 f2 →
      get_locally_built_jar_for_target t [⟨d1, [f1]⟩, ⟨d2, [f2]⟩] =
        .error .ambiguousArtifact) ∧
    (∀ (t d f : String),
      py_basename d ≠ "target" → py_basename d ≠ "" →
      get_locally_built_jar_for_target t [⟨d, [f]⟩] =
        .error .artifactNotFound) := by
  have bridge : ∀ (t : String) (walk : List WalkDir),
      (∀ d ∈ walk, py_basename d.dirpath ≠ "") →
      get_locally_built_jar_for_target t walk =
        (match collect_local_jars t walk with
          | [] => .error .artifactNotFound
          | [j] => .ok j
          | _ :: _ :: _ => .error .ambiguousArtifact) := by
    intro t walk h0
    unfold get_locally_built_jar_for_target walk_collect collect_local_jars
    rw [walk_collect_ok t walk [] h0]
    rfl
  refine ⟨?_, ?_, ?_, ?_, ?_⟩
  · intro t walk h0 hc
    rw [bridge t walk h0, hc]
  · intro t walk j h0 hc
    rw [bridge t walk h0, hc]
  · intro t walk j1 j2 rest h0 hc
    rw [bridge t walk h0, hc]
  · intro t d1 d2 f1 f2 h1 h2 hf1 hf2 hne
    have h0 : ∀ d ∈ [WalkDir.mk d1 [f1], WalkDir.mk d2 [f2]],
        py_basename d.dirpath ≠ "" := by
      intro d hd
      rcases List.mem_cons.mp hd with rfl | hd2
      · simp only []
        rw [h1]
        decide
      · rcases List.mem_cons.mp hd2 with rfl | hd3
        · simp only []
          rw [h2]
          decide
        · cases hd3
    have hc : collect_local_jars t [WalkDir.mk d1 [f1], WalkDir.mk d2 [f2]] =
        [py_join d1 f1, py_join d2 f2] := by
      unfold collect_local_jars
      simp only [List.foldl_cons, List.foldl_nil]
      unfold walk_dir_step
      simp only [h1, h2, if_pos rfl, List.foldl_cons, List.foldl_nil, hf1, hf2,
        if_true, List.mem_nil_iff, if_false, List.nil_append, List.mem_cons,
        List.not_mem_nil, or_false]
      rw [if_neg]
      · rfl
      · exact fun heq => hne heq.symm
    rw [bridge t _ h0, hc]
  · intro t d f hnt hne
    have h0 : ∀ e ∈ [WalkDir.mk d [f]], py_basename e.dirpath ≠ "" := by
      intro e he
      rcases List.mem_cons.mp he with rfl | he2
      · exact hne
      · cases he2
    have hc : collect_local_jars t [WalkDir.mk d [f]] = [] := by
      unfold collect_local_jars walk_dir_step
      simp only [List.foldl_cons, List.foldl_nil, hnt, if_false]
    rw [bridge t _ h0, hc]

/-- Witness for `locate_local_jar_cases`: the sole-match part on a concrete
one-directory walk, plus concrete instances of the ambiguous and non-target
parts. -/
theorem locate_local_jar_cases_witness :
    get_locally_built_jar_for_target "kiji-modeling"
        [⟨"/w/kiji-modeling/target", ["kiji-modeling-1.2.3-SNAPSHOT.jar"]⟩] =
      .ok "/w/kiji-modeling/target/kiji-modeling-1.2.3-SNAPSHOT.jar" ∧
    get_locally_built_jar_for_target "kiji-modeling"
        [⟨"/a/target", ["kiji-modeling-1.2.3-SNAPSHOT.jar"]⟩,
         ⟨"/b/target", ["kiji-modeling-1.2.3-SNAPSHOT.jar"]⟩] =
      .error .ambiguousArtifact ∧
    get_locally_built_jar_for_target "kiji-modeling"
        [⟨"/w/kiji-modeling/lib", ["kiji-modeling-1.2.3-SNAPSHOT.jar"]⟩] =
      .error .artifactNotFound :=
  ⟨locate_local_jar_cases.2.1 "kiji-modeling"
      [⟨"/w/kiji-modeling/target", ["kiji-modeling-1.2.3-SNAPSHOT.jar"]⟩]
      "/w/kiji-modeling/target/kiji-modeling-1.2.3-SNAPSHOT.jar"
      (by decide) (by decide),
    locate_local_jar_cases.2.2.2.1 "kiji-modeling" "/a/target" "/b/target"
      "kiji-modeling-1.2.3-SNAPSHOT.jar" "kiji-modeling-1.2.3-SNAPSHOT.jar"
      (by decide) (by decide) (by decide) (by decide) (by decide),
    locate_local_jar_cases.2.2.2.2 "kiji-modeling" "/w/kiji-modeling/lib"
      "kiji-modeling-1.2.3-SNAPSHOT.jar" (by decide) (by decide)⟩

/-! ## ClasspathResolver: `get_classpath_from_maven`

Source: bento_classpath.py lines 81-106.  The captured output of
`mvn dependency:build-classpath` is embedded as its list of lines; the
`print` calls are pure logging and are omitted. -/

/-- The fixed marker line the parser searches for. -/
def marker_line : String := "[INFO] Dependencies classpath:"

/-- Helper for `py_split_colon`: current (reversed) chunk and remaining
input. -/
def py_split_colon_chars : List Char → List Char → List String
  | cur, [] => [String.mk cur.reverse]
  | cur, c :: rest =>
    if c = ':' then String.mk cur.reverse :: py_split_colon_chars [] rest
    else py_split_colon_chars (c :: cur) rest

/-- Python `line.split(':')`. -/
def py_split_colon (s : String) : List String :=
  py_split_colon_chars [] s.toList

/-- Loop state of `get_classpath_from_maven`: the `dependencies` variable and
the `b_expect_on_next_line` flag. -/
structure CPState where
  dependencies : Option (List String)
  b_expect_on_next_line : Bool
  deriving DecidableEq, Repr

/-- The line loop of `get_classpath_from_maven`. -/
def classpath_scan : CPState → List String → Except PErr CPState
  | st, [] => .ok st
  | st, line :: rest =>
    if line = marker_line then
      match st.dependencies with
      | some _ => .error .markerReentered
      | none => classpath_scan ⟨none, true⟩ rest
    else if st.b_expect_on_next_line then
      match st.dependencies with
      | some _ => .error .expectInvariant
      | none =>
        if py_startswith line "[INFO]" then .error (.logLineAfterMarker line)
        else classpath_scan ⟨some (py_split_colon line), false⟩ rest
    else classpath_scan st rest

/-- `get_classpath_from_maven()` over the captured output lines: run the
loop from `dependencies = None`, `b_expect_on_next_line = False`, then
`assert dependencies != None`. -/
def get_classpath_from_maven (maven_output_lines : List String) :
    Except PErr (List String) := do
  let st ← classpath_scan ⟨none, false⟩ maven_output_lines
  match st.dependencies with
  | none => .error .noMarkerFound
  | some deps => .ok deps

/-- C9 counterexample: when the marker line is immediately followed by a
second copy of the marker line — which is itself a `[INFO]` log line — the
parser raises no error at that line (the repeated marker takes the `if`
branch, not the `elif`), and the run succeeds on the line after that: the
claim that a log line following the marker always fails is refuted. -/
theorem classpath_double_marker_no_error :
    py_startswith marker_line "[INFO]" = true ∧
    get_classpath_from_maven
        [marker_line, marker_line, "/r/a.jar:/r/b.jar"] =
      .ok ["/r/a.jar", "/r/b.jar"] := by
  refine ⟨by decide, by decide⟩

/-- A scan whose state is not expecting the classpath line skips every line
that is not the marker. -/
theorem classpath_scan_skips (d : Option (List String)) :
    ∀ lines : List String, marker_line ∉ lines →
      classpath_scan ⟨d, false⟩ lines = .ok ⟨d, false⟩ := by
  intro lines
  induction lines with
  | nil => intro _; rfl
  | cons l rest ih =>
    intro hnm
    have hl : ¬ l = marker_line := by
      intro h
      exact hnm (h ▸ List.mem_cons_self l rest)
    unfold classpath_scan
    simp only [hl, if_false, Bool.false_eq_true]
    exact ih (fun h => hnm (List.mem_cons_of_mem l h))

/-- Any scan of a line list containing the marker immediately followed by a
non-marker `[INFO]` line ends in an error, from any state. -/
theorem classpath_scan_marker_then_log (l : String) (post : List String)
    (hl : l ≠ marker_line) (hinfo : py_startswith l "[INFO]" = true) :
    ∀ (pre : List String) (st : CPState), ∃ e,
      classpath_scan st (pre ++ marker_line :: l :: post) = .error e := by
  intro pre
  induction pre with
  | nil =>
    intro st
    unfold classpath_scan
    simp only [List.nil_append, if_pos rfl]
    match hd : st.dependencies with
    | some d => exact ⟨.markerReentered, rfl⟩
    | none =>
      unfold classpath_scan
      simp only [hl, if_false, if_true, hinfo]
      exact ⟨.logLineAfterMarker l, rfl⟩
  | cons p pre' ih =>
    intro st
    rw [List.cons_append]
    unfold classpath_scan
    by_cases hp : p = marker_line
    · simp only [hp, if_pos rfl]
      match hd : st.dependencies with
      | some d => exact ⟨.markerReentered, rfl⟩
      | none => exact ih ⟨none, true⟩
    · simp only [hp, if_false]
      by_cases hb : st.b_expect_on_next_line
      · simp only [hb, if_true]
        match hd : st.dependencies with
        | some d => exact ⟨.expectInvariant, rfl⟩
        | none =>
          by_cases hpi : py_startswith p "[INFO]" = true
          · simp only [hpi, if_true]
            exact ⟨.logLineAfterMarker p, rfl⟩
          · simp only [hpi, if_false]
            exact ih ⟨some (py_split_colon p), false⟩
      · simp only [hb, if_false]
        exact ih st

/-- C9 amended: the parser fails with the no-marker assert whenever the
marker line is absent; it fails whenever some marker occurrence is followed
by a log line other than the marker itself; and on output consisting of
non-marker lines around a single marker followed by a non-log line, it
returns exactly that following line split on `:`.  (A marker immediately
followed by a second marker is treated as a fresh marker, not as a parse
error — see the counterexample.) -/
theorem classpath_marker_contract :
    (∀ lines : List String, marker_line ∉ lines →
      get_classpath_from_maven lines = .error .noMarkerFound) ∧
    (∀ (pre : List String) (l : String) (post : List String),
      l ≠ marker_line → py_startswith l "[INFO]" = true →
      ∃ e, get_classpath_from_maven (pre ++ marker_line :: l :: post) =
        .error e) ∧
    (∀ (pre : List String) (l : String) (post : List String),
      marker_line ∉ pre → marker_line ∉ post →
      l ≠ marker_line → py_startswith l "[INFO]" = false →
      get_classpath_from_maven (pre ++ marker_line :: l :: post) =
        .ok (py_split_colon l)) := by
  refine ⟨?_, ?_, ?_⟩
  · intro lines hnm
    unfold get_classpath_from_maven
    rw [classpath_scan_skips none lines hnm]
    rfl
  · intro pre l post hl hinfo
    obtain ⟨e, he⟩ := classpath_scan_marker_then_log l post hl hinfo pre
      ⟨none, false⟩
    refine ⟨e, ?_⟩
    unfold get_classpath_from_maven
    rw [he]
    rfl
  · intro pre l post hpre hpost hl hinfo
    unfold get_classpath_from_maven
    have h1 : classpath_scan ⟨none, false⟩ (pre ++ marker_line :: l :: post) =
        classpath_scan ⟨none, false⟩ (marker_line :: l :: post) := by
      clear hpost
      induction pre with
      | nil => rfl
      | cons p pre' ih =>
        have hp : ¬ p = marker_line := by
          intro h
          exact hpre (h ▸ List.mem_cons_self p pre')
        rw [List.cons_append]
        unfold classpath_scan
        simp only [hp, if_false, Bool.false_eq_true]
        exact ih (fun h => hpre (List.mem_cons_of_mem p h))
    rw [h1]
    unfold classpath_scan
    simp only [if_pos rfl]
    unfold classpath_scan
    simp only [hl, if_false, if_true, hinfo, Bool.false_eq_true]
    rw [classpath_scan_skips (some (py_split_colon l)) post hpost]
    rfl

/-- Witness for `classpath_marker_contract` on concrete maven output. -/
theorem classpath_marker_contract_witness :
    get_classpath_from_maven
        (["[INFO] Scanning for projects..."] ++ marker_line ::
          "/r/a.jar:/r/b.jar" :: ["[INFO] BUILD SUCCESS"]) =
      .ok (py_split_colon "/r/a.jar:/r/b.jar") ∧
    get_classpath_from_maven ["[INFO] BUILD SUCCESS"] =
      .error .noMarkerFound ∧
    (∃ e, get_classpath_from_maven
        ([] ++ marker_line :: "[INFO] BUILD SUCCESS" :: []) = .error e) :=
  ⟨classpath_marker_contract.2.2 ["[INFO] Scanning for projects..."]
      "/r/a.jar:/r/b.jar" ["[INFO] BUILD SUCCESS"]
      (by decide) (by decide) (by decide) (by decide),
    classpath_marker_contract.1 ["[INFO] BUILD SUCCESS"] (by decide),
    classpath_marker_contract.2.1 [] "[INFO] BUILD SUCCESS" []
      (by decide) (by decide)⟩

/-! ## C10: `get_dependency_jars` and the missing `BentoClasspath` class

`make_cassandra_bento.py` lines 413-444 and `bento_reboot.py` lines 215-246
call `bento_classpath.BentoClasspath()`.  `bento_classpath.py` is a flat
script: its top level binds only the names listed below (lines 11-19 imports,
21-25 helpers, 27-78 parser plus module-level argument parsing, 81-146
functions and the module-level pipeline).  Attribute access on a module
object succeeds exactly for its top-level names. -/

/-- The names bound at the top level of the `bento_classpath` module. -/
def bento_classpath_module_names : List String :=
  ["argparse", "collections", "functools", "logging", "os", "re", "shutil",
   "subprocess", "sys", "myname", "description", "run", "create_parser",
   "args", "output_file", "env_var", "b_blow_away", "lib_dir_name",
   "get_classpath_from_maven", "remove_kiji_dependencies",
   "write_classpath_file", "create_kiji_mr_lib_directory", "dependencies",
   "dependencies_without_kiji"]

/-- Python attribute lookup on a module object: `AttributeError` when the
name is not bound at the module's top level. -/
def py_module_getattr (attrs : List String) (a : String) : Except PErr Unit :=
  if a ∈ attrs then .ok () else .error (.attributeError a)

/-- `_get_dependencies_for_building_target(local_jar)`: after the path
asserts, it evaluates `bento_classpath.BentoClasspath()`, which first looks
up the attribute `BentoClasspath` on the module.  The continuation
(constructing the object, `.go('-f'.split())`, reading `.dependencies`) is
unreachable because the lookup fails, and is represented by the empty
dependency list. -/
def get_dependencies_for_building_target (attrs : List String)
    (_local_jar : String) : Except PErr (List String) := do
  let _ ← py_module_getattr attrs "BentoClasspath"
  .ok []

/-- `get_dependency_jars()` over the linked modules, with the locally-built
jar locator abstracted as a parameter (its own behavior is settled by C8). -/
def get_dependency_jars (locate : String → Except PErr String)
    (link_modules : List String) : Except PErr (List String) :=
  link_modules.foldlM (fun dependency_jars module => do
    let local_jar ← locate ("kiji-" ++ module)
    let deps ← get_dependencies_for_building_target
      bento_classpath_module_names local_jar
    .ok (dependency_jars ++ deps)) []

/-- C10: the `bento_classpath` module defines no top-level name
`BentoClasspath`, so for every nonempty list of link modules
`get_dependency_jars` never returns a classpath: the first module either
fails in the locator, or reaches `bento_classpath.BentoClasspath()` and
fails there with `AttributeError`. -/
theorem get_dependency_jars_never_returns
    (locate : String → Except PErr String) (m : String) (rest : List String) :
    "BentoClasspath" ∉ bento_classpath_module_names ∧
    (∀ jars, get_dependency_jars locate (m :: rest) ≠ .ok jars) ∧
    (∀ j, locate ("kiji-" ++ m) = .ok j →
      get_dependency_jars locate (m :: rest) =
        .error (.attributeError "BentoClasspath")) := by
  have hattr : py_module_getattr bento_classpath_module_names "BentoClasspath" =
      .error (.attributeError "BentoClasspath") := by decide
  have hstep : ∀ j, locate ("kiji-" ++ m) = .ok j →
      get_dependency_jars locate (m :: rest) =
        .error (.attributeError "BentoClasspath") := by
    intro j hj
    unfold get_dependency_jars
    rw [List.foldlM_cons]
    simp only [hj, get_dependencies_for_building_target, hattr]
    rfl
  refine ⟨by decide, ?_, hstep⟩
  intro jars hok
  cases hl : locate ("kiji-" ++ m) with
  | ok j =>
    rw [hstep j hl] at hok
    cases hok
  | error e =>
    unfold get_dependency_jars at hok
    rw [List.foldlM_cons] at hok
    simp only [hl] at hok
    cases hok

/-- Witness for `get_dependency_jars_never_returns` with a concrete locator
that succeeds. -/
theorem get_dependency_jars_never_returns_witness :
    (fun _t : String => (Except.ok "/w/target/kiji-modeling-1.2.3-SNAPSHOT.jar" :
        Except PErr String)) ("kiji-" ++ "modeling") =
      .ok "/w/target/kiji-modeling-1.2.3-SNAPSHOT.jar" ∧
    get_dependency_jars
        (fun _t => .ok "/w/target/kiji-modeling-1.2.3-SNAPSHOT.jar")
        ["modeling"] =
      .error (.attributeError "BentoClasspath") :=
  ⟨rfl,
    (get_dependency_jars_never_returns
        (fun _t => .ok "/w/target/kiji-modeling-1.2.3-SNAPSHOT.jar")
        "modeling" []).2.2
      "/w/target/kiji-modeling-1.2.3-SNAPSHOT.jar" rfl⟩

/-! ## SwapReconciler, copy path: `_do_action_update_lib_jars`

Source: make_cassandra_bento.py lines 476-569.  The lib directory enters as
its file listing; the jars actually copied by `_copy_jar_to_bento_lib` are
returned in order. -/

/-- `_is_jar_to_definitely_skip` (lines 490-500): substring tests on the
full path (`find(...) != -1`). -/
def is_jar_to_definitely_skip (jar_full_path : String) : Bool :=
  containsSub jar_full_path "kiji" || containsSub jar_full_path "hadoop" ||
    containsSub jar_full_path "hbase"

/-- `_get_jar_file_name` (lines 463-464). -/
def get_jar_file_name (jar_full_path : String) : String :=
  py_basename jar_full_path

/-- Python `dict.has_key` on an association list. -/
def hasKey (k : String) (d : List (String × String)) : Bool :=
  d.any (fun p => p.1 = k)

/-- Python `d[k] = v`: overwrite in place if the key exists, append
otherwise. -/
def dictInsert (k v : String) (d : List (String × String)) :
    List (String × String) :=
  if hasKey k d then d.map (fun p => if p.1 = k then (k, v) else p)
  else d ++ [(k, v)]

/-- The fold underlying the dict comprehension of
`_get_bento_box_original_jars`: each jar's project name is computed (which
can raise) and bound in the dict. -/
def original_jars_fold : List String → List (String × String) →
    Except PErr (List (String × String))
  | [], d => .ok d
  | jar :: rest, d =>
    match get_jar_project_name jar with
    | .error e => .error e
    | .ok name => original_jars_fold rest (dictInsert name jar d)

/-- `_get_bento_box_original_jars` (lines 476-488): the dict comprehension
`{ project_name(jar) : jar }` over the non-skipped `.jar` files of the lib
listing. -/
def get_bento_box_original_jars (lib_files : List String) :
    Except PErr (List (String × String)) :=
  original_jars_fold
    (lib_files.filter (fun f =>
      py_endswith f ".jar" && !is_jar_to_definitely_skip f)) []

/-- `_should_copy_jar_to_bento_lib` (lines 502-533).  The `original_jars`
lookup in the source only chooses a log message: the function returns True
whether or not the project is among the original jars, so the parameter is
unused here beyond matching the source signature. -/
def should_copy_jar_to_bento_lib (jar_full_path : String)
    (added_jars _original_jars : List (String × String)) : Except PErr Bool :=
  if is_jar_to_definitely_skip jar_full_path then .ok false
  else
    match get_jar_project_name jar_full_path with
    | .error e => .error e
    | .ok project_name =>
      if hasKey project_name added_jars then .ok false else .ok true

/-- `_update_added_jars` (lines 542-545), including its assert. -/
def update_added_jars (jar_full_path : String)
    (added_jars : List (String × String)) :
    Except PErr (List (String × String)) :=
  match get_jar_project_name jar_full_path with
  | .error e => .error e
  | .ok project_name =>
    if hasKey project_name added_jars then .error (.addedTwice jar_full_path)
    else .ok (dictInsert project_name (get_jar_file_name jar_full_path)
      added_jars)

/-- The loop of `_do_action_update_lib_jars` (lines 561-569), threading
`added_jars` and recording the jars passed to `_copy_jar_to_bento_lib`. -/
def update_lib_jars_loop (original_jars : List (String × String)) :
    List String → List (String × String) → List String →
    Except PErr (List (String × String) × List String)
  | [], added_jars, installed => .ok (added_jars, installed)
  | jar :: rest, added_jars, installed =>
    match should_copy_jar_to_bento_lib jar added_jars original_jars with
    | .error e => .error e
    | .ok false => update_lib_jars_loop original_jars rest added_jars installed
    | .ok true =>
      match update_added_jars jar added_jars with
      | .error e => .error e
      | .ok added' =>
        update_lib_jars_loop original_jars rest added' (installed ++ [jar])

/-- `_do_action_update_lib_jars` (lines 547-569): build the original-jar
map, then fold the dependency jars; returns the copied jars in order. -/
def do_action_update_lib_jars (lib_files dependency_jars : List String) :
    Except PErr (List String) :=
  match get_bento_box_original_jars lib_files with
  | .error e => .error e
  | .ok original_jars =>
    match update_lib_jars_loop original_jars dependency_jars [] [] with
    | .error e => .error e
    | .ok r => .ok r.2

/-- The project identity of an entry, when it parses. -/
def ident_key (jar : String) : Option String :=
  match get_jar_project_name jar with
  | .ok p => some p
  | .error _ => none

/-! ## C2: the end-to-end swap scenario for `widgets-2.1.0-SNAPSHOT.jar` -/

/-- C2 counterexample: with `widgets-2.0.0.jar` in the lib directory,
reconciling the classpath entry `/x/widgets-2.1.0-SNAPSHOT.jar` does not
perform any backup-and-install — it raises: the identity regex recognizes no
`-SNAPSHOT` qualifier, so `_get_jar_project_name` strips nothing and its
assert fires before any copy; in particular the run neither creates
`widgets-2.0.0.bak` nor succeeds without error. -/
theorem snapshot_entry_reconcile_fails :
    do_action_update_lib_jars ["widgets-2.0.0.jar"]
        ["/x/widgets-2.1.0-SNAPSHOT.jar"] =
      .error (.unparsable "widgets-2.1.0-SNAPSHOT.jar") := by
  decide

/-- C2 amended: the original jar's identity parses (`widgets`), but the
entry `widgets-2.1.0-SNAPSHOT.jar` has no recognizable suffix for the
identity regex, so the reconciliation run fails with the unparsable-name
assert on the entry and installs nothing; no `.bak` file is ever produced by
this code path. -/
theorem snapshot_entry_error_unparsable :
    jar_project_name_of_name "widgets-2.0.0.jar" = .ok "widgets" ∧
    get_jar_project_name "/x/widgets-2.1.0-SNAPSHOT.jar" =
      .error (.unparsable "widgets-2.1.0-SNAPSHOT.jar") ∧
    do_action_update_lib_jars ["widgets-2.0.0.jar"]
        ["/x/widgets-2.1.0-SNAPSHOT.jar"] =
      .error (.unparsable "widgets-2.1.0-SNAPSHOT.jar") := by
  refine ⟨by decide, by decide, by decide⟩

/-! ## C3: first-seen-wins deduplication of `_do_action_update_lib_jars` -/

theorem hasKey_dictInsert (q k v : String) (d : List (String × String)) :
    hasKey q (dictInsert k v d) = (decide (q = k) || hasKey q d) := by
  unfold dictInsert
  by_cases hk : hasKey k d
  · simp only [hk, if_true]
    have hmap : ∀ d' : List (String × String),
        hasKey q (d'.map (fun p => if p.1 = k then (k, v) else p)) =
          hasKey q d' := by
      intro d'
      induction d' with
      | nil => rfl
      | cons p ps ih =>
        unfold hasKey at ih ⊢
        simp only [List.map_cons, List.any_cons, ih]
        by_cases hp : p.1 = k
        · simp [hp]
        · simp [hp]
    rw [hmap]
    by_cases hqk : q = k
    · subst hqk
      simp [hk]
    · simp [hqk]
  · simp only [hk, Bool.false_eq_true, if_false]
    unfold hasKey
    rw [List.any_append]
    by_cases hqk : q = k
    · subst hqk
      simp
    · have : ¬ k = q := fun h => hqk h.symm
      simp [hqk, this]

/-- When every lib jar's identity parses, building the original-jar map
succeeds. -/
theorem original_jars_fold_ok :
    ∀ (files : List String) (d : List (String × String)),
      (∀ f ∈ files, ∃ p, get_jar_project_name f = .ok p) →
      ∃ d', original_jars_fold files d = .ok d' := by
  intro files
  induction files with
  | nil => intro d _; exact ⟨d, rfl⟩
  | cons f rest ih =>
    intro d hall
    obtain ⟨p, hp⟩ := hall f (by simp)
    unfold original_jars_fold
    rw [hp]
    exact ih (dictInsert p f d) (fun g hg => hall g (List.mem_cons_of_mem f hg))

/-- The central induction for C3: from any `added_jars` state, the loop
succeeds (under identity-parsing of non-skipped entries) and appends to
`installed` exactly one entry per fresh identity — the first non-skipped
entry bearing it. -/
theorem update_loop_spec (orig : List (String × String)) :
    ∀ (entries : List String) (added : List (String × String))
      (inst : List String),
      (∀ e ∈ entries, is_jar_to_definitely_skip e = false →
        ∃ p, get_jar_project_name e = .ok p) →
      ∃ added' Δ,
        update_lib_jars_loop orig entries added inst = .ok (added', inst ++ Δ) ∧
        (∀ i ∈ Δ, ∃ q, ident_key i = some q ∧ hasKey q added = false) ∧
        (Δ.map ident_key).Nodup ∧
        (∀ e ∈ entries, is_jar_to_definitely_skip e = false →
          (∀ q, ident_key e = some q → hasKey q added = false) →
          ∃ i ∈ Δ, ident_key i = ident_key e) ∧
        (∀ i ∈ Δ,
          (entries.filter (fun x => !is_jar_to_definitely_skip x)).find?
            (fun x => decide (ident_key x = ident_key i)) = some i) := by
  intro entries
  induction entries with
  | nil =>
    intro added inst _
    refine ⟨added, [], by simp [update_lib_jars_loop], by simp, by simp,
      by simp, by simp⟩
  | cons jar rest ih =>
    intro added inst hents
    have hrest : ∀ e ∈ rest, is_jar_to_definitely_skip e = false →
        ∃ p, get_jar_project_name e = .ok p :=
      fun e he => hents e (List.mem_cons_of_mem jar he)
    by_cases hskip : is_jar_to_definitely_skip jar = true
    · obtain ⟨added', Δ, hrun, h1, h2, h3, h4⟩ := ih added inst hrest
      refine ⟨added', Δ, ?_, h1, h2, ?_, ?_⟩
      · unfold update_lib_jars_loop should_copy_jar_to_bento_lib
        simp only [hskip, if_true]
        exact hrun
      · intro e he hef hq
        rcases List.mem_cons.mp he with heq | he'
        · rw [heq, hskip] at hef; cases hef
        · exact h3 e he' hef hq
      · intro i hi
        rw [List.filter_cons]
        simp only [hskip, Bool.not_true, Bool.false_eq_true, if_false]
        exact h4 i hi
    · have hskipf : is_jar_to_definitely_skip jar = false := by
        cases h : is_jar_to_definitely_skip jar
        · rfl
        · exact absurd h hskip
      obtain ⟨p, hp⟩ := hents jar (by simp) hskipf
      have hkeyjar : ident_key jar = some p := by
        unfold ident_key
        rw [hp]
      by_cases hadded : hasKey p added = true
      · obtain ⟨added', Δ, hrun, h1, h2, h3, h4⟩ := ih added inst hrest
        refine ⟨added', Δ, ?_, h1, h2, ?_, ?_⟩
        · unfold update_lib_jars_loop should_copy_jar_to_bento_lib
          simp only [hskipf, Bool.false_eq_true, if_false, hp, hadded, if_true]
          exact hrun
        · intro e he hef hq
          rcases List.mem_cons.mp he with heq | he'
          · have := hq p (by rw [heq]; exact hkeyjar)
            rw [this] at hadded
            cases hadded
          · exact h3 e he' hef hq
        · intro i hi
          rw [List.filter_cons]
          simp only [hskipf, Bool.not_false, if_true]
          obtain ⟨q, hqk, hqa⟩ := h1 i hi
          have hne : ident_key jar ≠ ident_key i := by
            rw [hkeyjar, hqk]
            intro hcontr
            rw [Option.some.inj hcontr] at hadded
            rw [hadded] at hqa
            cases hqa
          have hd : decide (ident_key jar = ident_key i) = false :=
            decide_eq_false hne
          rw [List.find?_cons, hd]
          exact h4 i hi
      · have haddedf : hasKey p added = false := by
          cases h : hasKey p added
          · rfl
          · exact absurd h hadded
        obtain ⟨added', Δ', hrun, h1, h2, h3, h4⟩ :=
          ih (dictInsert p (get_jar_file_name jar) added) (inst ++ [jar]) hrest
        refine ⟨added', jar :: Δ', ?_, ?_, ?_, ?_, ?_⟩
        · unfold update_lib_jars_loop should_copy_jar_to_bento_lib
            update_added_jars
          simp only [hskipf, Bool.false_eq_true, if_false, hp, haddedf]
          rw [hrun, List.append_assoc]
          rfl
        · intro i hi
          rcases List.mem_cons.mp hi with rfl | hi'
          · exact ⟨p, hkeyjar, haddedf⟩
          · obtain ⟨q, hqk, hqa⟩ := h1 i hi'
            refine ⟨q, hqk, ?_⟩
            rw [hasKey_dictInsert] at hqa
            exact (Bool.or_eq_false_iff.mp hqa).2
        · rw [List.map_cons, List.nodup_cons]
          refine ⟨?_, h2⟩
          intro hmem
          obtain ⟨i, hiΔ, hkey⟩ := List.mem_map.mp hmem
          obtain ⟨q, hqk, hqa⟩ := h1 i hiΔ
          rw [hqk, hkeyjar] at hkey
          rw [Option.some.inj hkey] at hqa
          rw [hasKey_dictInsert] at hqa
          simp at hqa
        · intro e he hef hq
          rcases List.mem_cons.mp he with heq | he'
          · exact ⟨jar, List.mem_cons_self jar Δ', by rw [heq]⟩
          · by_cases hep : ident_key e = some p
            · refine ⟨jar, by simp, ?_⟩
              rw [hkeyjar, hep]
            · have hq' : ∀ q, ident_key e = some q →
                  hasKey q (dictInsert p (get_jar_file_name jar) added) =
                    false := by
                intro q hqe
                rw [hasKey_dictInsert]
                have hqp : ¬ q = p := by
                  intro h
                  rw [h] at hqe
                  exact hep hqe
                rw [decide_eq_false hqp, Bool.false_or]
                exact hq q hqe
              obtain ⟨i, hiΔ, hik⟩ := h3 e he' hef hq'
              exact ⟨i, List.mem_cons_of_mem jar hiΔ, hik⟩
        · intro i hi
          rw [List.filter_cons]
          simp only [hskipf, Bool.not_false, if_true]
          rw [List.find?_cons]
          rcases List.mem_cons.mp hi with rfl | hi'
          · simp
          · obtain ⟨q, hqk, hqa⟩ := h1 i hi'
            rw [hasKey_dictInsert] at hqa
            have hqp : (decide (q = p) : Bool) = false :=
              (Bool.or_eq_false_iff.mp hqa).1
            have hne : ident_key jar ≠ ident_key i := by
              rw [hkeyjar, hqk]
              intro hcontr
              rw [Option.some.inj hcontr] at hqp
              simp at hqp
            have hd : decide (ident_key jar = ident_key i) = false :=
              decide_eq_false hne
            rw [hd]
            exact h4 i hi'

/-- Whether an embedded computation succeeded (decidable form used in
hypotheses). -/
def exceptIsOk : Except PErr String → Bool
  | .ok _ => true
  | .error _ => false

theorem exceptIsOk_exists (e : Except PErr String)
    (h : exceptIsOk e = true) : ∃ p, e = .ok p := by
  cases e with
  | ok p => exact ⟨p, rfl⟩
  | error err => cases h

/-- C3: for identity-parsing inputs, `_do_action_update_lib_jars` succeeds
and installs exactly one artifact per distinct non-denylisted identity: the
installed identities are pairwise distinct, every non-denylisted entry's
identity is represented, and each installed artifact is the first
non-denylisted entry of the input bearing its identity (first-seen wins,
not highest version). -/
theorem update_lib_jars_first_seen_wins
    (lib_files dependency_jars : List String)
    (hlib : ∀ f ∈ lib_files.filter (fun f =>
        py_endswith f ".jar" && !is_jar_to_definitely_skip f),
      exceptIsOk (get_jar_project_name f) = true)
    (hdep : ∀ e ∈ dependency_jars, is_jar_to_definitely_skip e = false →
      exceptIsOk (get_jar_project_name e) = true) :
    ∃ installed,
      do_action_update_lib_jars lib_files dependency_jars = .ok installed ∧
      (installed.map ident_key).Nodup ∧
      (∀ e ∈ dependency_jars, is_jar_to_definitely_skip e = false →
        ∃ i ∈ installed, ident_key i = ident_key e) ∧
      (∀ i ∈ installed,
        (dependency_jars.filter (fun x => !is_jar_to_definitely_skip x)).find?
          (fun x => decide (ident_key x = ident_key i)) = some i) := by
  obtain ⟨orig, horig⟩ := original_jars_fold_ok _ []
    (fun f hf => exceptIsOk_exists _ (hlib f hf))
  obtain ⟨added', Δ, hrun, _, h2, h3, h4⟩ :=
    update_loop_spec orig dependency_jars [] []
      (fun e he hef => exceptIsOk_exists _ (hdep e he hef))
  refine ⟨Δ, ?_, h2, ?_, h4⟩
  · unfold do_action_update_lib_jars get_bento_box_original_jars
    rw [horig]
    show (match update_lib_jars_loop orig dependency_jars [] [] with
      | .error e => (.error e : Except PErr (List String))
      | .ok r => .ok r.2) = .ok Δ
    rw [hrun]
    rfl
  · intro e he hef
    exact h3 e he hef (fun q _ => rfl)

/-- Witness for `update_lib_jars_first_seen_wins` on a concrete run with a
duplicate identity (`foo`) and a denylisted entry. -/
theorem update_lib_jars_first_seen_wins_witness :
    do_action_update_lib_jars ["widgets-2.0.0.jar"]
        ["/a/foo-1.0.0.jar", "/b/foo-2.0.0.jar", "/x/hadoop-core-1.0.0.jar",
          "/c/bar-1.0.0.jar"] =
      .ok ["/a/foo-1.0.0.jar", "/c/bar-1.0.0.jar"] ∧
    (∃ installed,
      do_action_update_lib_jars ["widgets-2.0.0.jar"]
          ["/a/foo-1.0.0.jar", "/b/foo-2.0.0.jar", "/x/hadoop-core-1.0.0.jar",
            "/c/bar-1.0.0.jar"] = .ok installed ∧
      (installed.map ident_key).Nodup ∧
      (∀ e ∈ ["/a/foo-1.0.0.jar", "/b/foo-2.0.0.jar",
          "/x/hadoop-core-1.0.0.jar", "/c/bar-1.0.0.jar"],
        is_jar_to_definitely_skip e = false →
        ∃ i ∈ installed, ident_key i = ident_key e) ∧
      (∀ i ∈ installed,
        (["/a/foo-1.0.0.jar", "/b/foo-2.0.0.jar", "/x/hadoop-core-1.0.0.jar",
            "/c/bar-1.0.0.jar"].filter
          (fun x => !is_jar_to_definitely_skip x)).find?
          (fun x => decide (ident_key x = ident_key i)) = some i)) :=
  ⟨by decide,
    update_lib_jars_first_seen_wins ["widgets-2.0.0.jar"]
      ["/a/foo-1.0.0.jar", "/b/foo-2.0.0.jar", "/x/hadoop-core-1.0.0.jar",
        "/c/bar-1.0.0.jar"]
      (by decide)
      (by decide)⟩

/-! ## SwapReconciler backup-first swap: `_backup_bento_jar` and install

Sources: `_backup_bento_jar` (make_cassandra_bento.py lines 317-334 =
bento_reboot.py lines 418-435), `_symlink_local_jar_to_bento` in its copy
variant (make_cassandra_bento.py lines 336-340, `shutil.copyfile`) and its
link variant (bento_reboot.py lines 437-441, `os.symlink`), and the per-jar
loop of `_do_action_copy_kiji_jars` / `_do_action_link_jars` (lines 355-357
resp. 456-458).  The library directory is an association list from file
names to entries; symlink targets point outside the directory, and the
parameter `ext` tells which outside paths exist as files. -/

/-- A directory entry: a regular file with contents, or a symbolic link. -/
inductive FsEntry where
  | file (content : String)
  | symlink (target : String)
  deriving DecidableEq, Repr

/-- A directory: an association list from file names to entries. -/
abbrev Dir := List (String × FsEntry)

/-- Name lookup in a directory. -/
def dlookup (n : String) : Dir → Option FsEntry
  | [] => none
  | (m, e) :: rest => if m = n then some e else dlookup n rest

/-- Remove a name from a directory. -/
def derase (n : String) (d : Dir) : Dir :=
  d.filter (fun p => !decide (p.1 = n))

/-- Bind a name in a directory (used for `os.rename` destinations, which
overwrite, and for newly created entries). -/
def dupdate (n : String) (e : FsEntry) (d : Dir) : Dir :=
  derase n d ++ [(n, e)]

/-- Extensional equality of directories: same contents under every name. -/
def DirEq (d1 d2 : Dir) : Prop := ∀ n, dlookup n d1 = dlookup n d2

/-- `os.path.islink` within the directory. -/
def islink (n : String) (d : Dir) : Bool :=
  match dlookup n d with
  | some (.symlink _) => true
  | _ => false

/-- `os.path.isfile`: a regular file, or a symlink whose target exists as a
file outside the directory. -/
def isfile (ext : String → Bool) (n : String) (d : Dir) : Bool :=
  match dlookup n d with
  | some (.file _) => true
  | some (.symlink t) => ext t
  | none => false

/-- `bento_jar.replace('.jar', '.bak')` (line 322 resp. 423). -/
def bak_name (bento_jar : String) : String :=
  py_replace bento_jar ".jar" ".bak"

/-- `_backup_bento_jar`: if the jar is a symlink, assert the backup file
exists and remove the link; otherwise rename the jar onto the backup name
(overwriting any previous holder, as `os.rename` does) and assert the backup
is now a file. -/
def backup_bento_jar (ext : String → Bool) (bento_jar : String) (d : Dir) :
    Except PErr Dir :=
  if islink bento_jar d then
    if isfile ext (bak_name bento_jar) d then .ok (derase bento_jar d)
    else .error (.missingBackup (bak_name bento_jar))
  else
    match dlookup bento_jar d with
    | none => .error (.renameSourceMissing bento_jar)
    | some e =>
      if isfile ext (bak_name bento_jar)
          (dupdate (bak_name bento_jar) e (derase bento_jar d)) then
        .ok (dupdate (bak_name bento_jar) e (derase bento_jar d))
      else .error (.missingBackup (bak_name bento_jar))

/-- The link-strategy install (bento_reboot.py lines 437-441): assert the
destination is not a file, then `os.symlink(local_jar, bento_jar)`, which
raises if the destination name exists at all (even as a dangling link). -/
def symlink_local_jar_to_bento (ext : String → Bool)
    (local_jar bento_jar : String) (d : Dir) : Except PErr Dir :=
  if isfile ext bento_jar d then .error (.destinationExists bento_jar)
  else
    match dlookup bento_jar d with
    | some _ => .error (.symlinkTargetExists bento_jar)
    | none => .ok (dupdate bento_jar (.symlink local_jar) d)

/-- The copy-strategy install (make_cassandra_bento.py lines 336-340):
assert the destination is not a file, then `shutil.copyfile(local_jar,
bento_jar)`; `local_content` is the locally built jar's content.  A dangling
symlink destination would make `copyfile` write through the link to a path
outside the modelled directory; that branch is unreachable in every run
considered here and is marked as an error. -/
def copyfile_local_jar_to_bento (ext : String → Bool)
    (local_content bento_jar : String) (d : Dir) : Except PErr Dir :=
  if isfile ext bento_jar d then .error (.destinationExists bento_jar)
  else
    match dlookup bento_jar d with
    | some (.symlink _) => .error (.copyThroughLink bento_jar)
    | _ => .ok (dupdate bento_jar (.file local_content) d)

/-- One iteration of the link-strategy loop body: back up, then symlink. -/
def swap_jar_link (ext : String → Bool) (local_jar : String) (d : Dir)
    (bento_jar : String) : Except PErr Dir :=
  match backup_bento_jar ext bento_jar d with
  | .error e => .error e
  | .ok d1 => symlink_local_jar_to_bento ext local_jar bento_jar d1

/-- One iteration of the copy-strategy loop body: back up, then copy. -/
def swap_jar_copy (ext : String → Bool) (local_content : String) (d : Dir)
    (bento_jar : String) : Except PErr Dir :=
  match backup_bento_jar ext bento_jar d with
  | .error e => .error e
  | .ok d1 => copyfile_local_jar_to_bento ext local_content bento_jar d1

/-- The per-jar loop of `_do_action_link_jars` over the bento jars found for
the linked modules (link strategy). -/
def reconcile_link (ext : String → Bool) (local_jar : String) :
    List String → Dir → Except PErr Dir
  | [], d => .ok d
  | bento_jar :: rest, d =>
    match swap_jar_link ext local_jar d bento_jar with
    | .error e => .error e
    | .ok d' => reconcile_link ext local_jar rest d'

/-- The per-jar loop of `_do_action_copy_kiji_jars` (copy strategy). -/
def reconcile_copy (ext : String → Bool) (local_content : String) :
    List String → Dir → Except PErr Dir
  | [], d => .ok d
  | bento_jar :: rest, d =>
    match swap_jar_copy ext local_content d bento_jar with
    | .error e => .error e
    | .ok d' => reconcile_copy ext local_content rest d'

/-- C1 counterexample, both parts of the claim at concrete inputs.
Part 1, copy strategy: starting from a clean directory holding the original
`widgets-2.0.0.jar`, the first run backs the original up to
`widgets-2.0.0.bak` and installs the new content; the second run finds a
regular file (not a link), renames it onto the backup name — overwriting the
`.bak` that existed before that run — so the state after the second run
differs from the state after the first at the `.bak` entry.
Part 2, link strategy: even the first run can overwrite a `.bak` that
existed before either run — when the library still holds the jar as a
regular file next to a stale `widgets-2.0.0.bak`, the swap is not the
symlink branch, so `os.rename` silently replaces the pre-existing backup
with the jar; the run succeeds and the stale backup's content is lost. -/
theorem reconcile_copy_not_idempotent :
    (reconcile_copy (fun _ => false) "newcontent" ["widgets-2.0.0.jar"]
        [("widgets-2.0.0.jar", .file "original")] =
      .ok [("widgets-2.0.0.bak", .file "original"),
           ("widgets-2.0.0.jar", .file "newcontent")] ∧
     reconcile_copy (fun _ => false) "newcontent" ["widgets-2.0.0.jar"]
        [("widgets-2.0.0.bak", .file "original"),
         ("widgets-2.0.0.jar", .file "newcontent")] =
      .ok [("widgets-2.0.0.bak", .file "newcontent"),
           ("widgets-2.0.0.jar", .file "newcontent")] ∧
     dlookup "widgets-2.0.0.bak"
        [("widgets-2.0.0.bak", .file "original"),
         ("widgets-2.0.0.jar", .file "newcontent")] =
      some (.file "original") ∧
     dlookup "widgets-2.0.0.bak"
        [("widgets-2.0.0.bak", .file "newcontent"),
         ("widgets-2.0.0.jar", .file "newcontent")] =
      some (.file "newcontent")) ∧
    (dlookup "widgets-2.0.0.bak"
        [("widgets-2.0.0.jar", .file "original"),
         ("widgets-2.0.0.bak", .file "stalebackup")] =
      some (.file "stalebackup") ∧
     reconcile_link (fun _ => false)
        "/w/target/widgets-2.1.0-SNAPSHOT.jar" ["widgets-2.0.0.jar"]
        [("widgets-2.0.0.jar", .file "original"),
         ("widgets-2.0.0.bak", .file "stalebackup")] =
      .ok [("widgets-2.0.0.bak", .file "original"),
           ("widgets-2.0.0.jar",
             .symlink "/w/target/widgets-2.1.0-SNAPSHOT.jar")] ∧
     dlookup "widgets-2.0.0.bak"
        [("widgets-2.0.0.bak", .file "original"),
         ("widgets-2.0.0.jar",
           .symlink "/w/target/widgets-2.1.0-SNAPSHOT.jar")] =
      some (.file "original")) := by
  refine ⟨⟨by decide, by decide, by decide, by decide⟩,
    by decide, by decide, by decide⟩

/-! ### Directory lookup lemmas -/

theorem dlookup_append (n : String) : ∀ d1 d2 : Dir,
    dlookup n (d1 ++ d2) =
      match dlookup n d1 with
      | some e => some e
      | none => dlookup n d2 := by
  intro d1
  induction d1 with
  | nil => intro d2; rfl
  | cons p rest ih =>
    intro d2
    obtain ⟨m, e⟩ := p
    rw [List.cons_append]
    by_cases hm : m = n
    · simp [dlookup, hm]
    · simp only [dlookup, hm, if_false, ih]

theorem dlookup_derase (n m : String) : ∀ d : Dir,
    dlookup n (derase m d) = if n = m then none else dlookup n d := by
  intro d
  induction d with
  | nil =>
    by_cases h : n = m
    · simp [derase, dlookup, h]
    · simp [derase, dlookup, h]
  | cons p rest ih =>
    obtain ⟨k, e⟩ := p
    unfold derase at ih ⊢
    rw [List.filter_cons]
    by_cases hk : k = m
    · have hc : (!decide ((k, e).1 = m)) = false := by simp [hk]
      rw [hc]
      simp only [Bool.false_eq_true, if_false]
      rw [ih]
      by_cases hn : n = m
      · simp [hn]
      · have hkn : ¬ k = n := by rw [hk]; exact fun h => hn h.symm
        simp [dlookup, hn, hkn]
    · have hc : (!decide ((k, e).1 = m)) = true := by simp [hk]
      rw [hc]
      simp only [if_true]
      by_cases hkn : k = n
      · have hnm : ¬ n = m := by rw [← hkn]; exact fun h => hk h
        simp [dlookup, hkn, hnm]
      · simp only [dlookup, hkn, if_false]
        exact ih

theorem dlookup_dupdate (n m : String) (e : FsEntry) (d : Dir) :
    dlookup n (dupdate m e d) = if n = m then some e else dlookup n d := by
  unfold dupdate
  rw [dlookup_append, dlookup_derase]
  by_cases h : n = m
  · simp [h, dlookup]
  · have : ¬ m = n := fun hc => h hc.symm
    cases hd : dlookup n d
    · simp [h, dlookup, this]
    · simp [h, dlookup, this]

theorem direq_refl (d : Dir) : DirEq d d := fun _ => rfl

theorem direq_symm {d t : Dir} (h : DirEq d t) : DirEq t d :=
  fun n => (h n).symm

theorem direq_trans {a b c : Dir} (h1 : DirEq a b) (h2 : DirEq b c) :
    DirEq a c := fun n => (h1 n).trans (h2 n)

theorem direq_derase {d t : Dir} (h : DirEq d t) (n : String) :
    DirEq (derase n d) (derase n t) := by
  intro m
  rw [dlookup_derase, dlookup_derase, h m]

theorem direq_dupdate {d t : Dir} (h : DirEq d t) (n : String) (e : FsEntry) :
    DirEq (dupdate n e d) (dupdate n e t) := by
  intro m
  rw [dlookup_dupdate, dlookup_dupdate, h m]

theorem islink_congr {d t : Dir} (h : DirEq d t) (n : String) :
    islink n d = islink n t := by
  unfold islink
  rw [h n]

theorem isfile_congr (ext : String → Bool) {d t : Dir} (h : DirEq d t)
    (n : String) : isfile ext n d = isfile ext n t := by
  unfold isfile
  rw [h n]

/-- Except-level extensional equality of swap outcomes. -/
def ExceptDirEq : Except PErr Dir → Except PErr Dir → Prop
  | .ok a, .ok b => DirEq a b
  | .error e, .error f => e = f
  | _, _ => False

/-! ### Properties of the link-strategy swap -/

/-- Eliminate a successful `_backup_bento_jar`: the jar name is gone, the
backup name is a file, and nothing else changed. -/
theorem backup_ok_elim (ext : String → Bool) (j : String) (d d1 : Dir)
    (hbak : bak_name j ≠ j) (hb : backup_bento_jar ext j d = .ok d1) :
    dlookup j d1 = none ∧ isfile ext (bak_name j) d1 = true ∧
      ∀ n, n ≠ j → n ≠ bak_name j → dlookup n d1 = dlookup n d := by
  by_cases h1 : islink j d = true
  · by_cases h2 : isfile ext (bak_name j) d = true
    · have hval : backup_bento_jar ext j d = .ok (derase j d) := by
        unfold backup_bento_jar
        rw [h1, h2]
        rfl
      rw [hval] at hb
      have hd1 : d1 = derase j d := (Except.ok.inj hb).symm
      subst hd1
      refine ⟨?_, ?_, ?_⟩
      · rw [dlookup_derase]
        simp
      · have hbd : dlookup (bak_name j) (derase j d) = dlookup (bak_name j) d := by
          rw [dlookup_derase, if_neg hbak]
        unfold isfile
        rw [hbd]
        exact h2
      · intro n hnj _
        rw [dlookup_derase, if_neg hnj]
    · have hval : backup_bento_jar ext j d =
          .error (.missingBackup (bak_name j)) := by
        unfold backup_bento_jar
        rw [h1, if_pos rfl, if_neg h2]
      rw [hval] at hb
      cases hb
  · cases hjd : dlookup j d with
    | none =>
      have hval : backup_bento_jar ext j d =
          .error (.renameSourceMissing j) := by
        unfold backup_bento_jar
        rw [if_neg h1, hjd]
      rw [hval] at hb
      cases hb
    | some e =>
      by_cases h2 : isfile ext (bak_name j)
          (dupdate (bak_name j) e (derase j d)) = true
      · have hval : backup_bento_jar ext j d =
            .ok (dupdate (bak_name j) e (derase j d)) := by
          unfold backup_bento_jar
          rw [if_neg h1, hjd]
          show (if isfile ext (bak_name j)
              (dupdate (bak_name j) e (derase j d)) = true then
            Except.ok (dupdate (bak_name j) e (derase j d))
          else Except.error (PErr.missingBackup (bak_name j))) =
            Except.ok (dupdate (bak_name j) e (derase j d))
          rw [if_pos h2]
        rw [hval] at hb
        have hd1 : d1 = dupdate (bak_name j) e (derase j d) :=
          (Except.ok.inj hb).symm
        subst hd1
        refine ⟨?_, h2, ?_⟩
        · rw [dlookup_dupdate, if_neg (fun hc => hbak hc.symm), dlookup_derase]
          simp
        · intro n hnj hnb
          rw [dlookup_dupdate, if_neg hnb, dlookup_derase, if_neg hnj]
      · have hval : backup_bento_jar ext j d =
            .error (.missingBackup (bak_name j)) := by
          unfold backup_bento_jar
          rw [if_neg h1, hjd]
          show (if isfile ext (bak_name j)
              (dupdate (bak_name j) e (derase j d)) = true then
            Except.ok (dupdate (bak_name j) e (derase j d))
          else Except.error (PErr.missingBackup (bak_name j))) =
            Except.error (PErr.missingBackup (bak_name j))
          rw [if_neg h2]
        rw [hval] at hb
        cases hb

/-- Eliminate a successful link install: the destination name was absent and
is now a symlink to the local jar. -/
theorem symlink_ok_elim (ext : String → Bool) (l j : String) (d1 d2 : Dir)
    (h : symlink_local_jar_to_bento ext l j d1 = .ok d2) :
    dlookup j d1 = none ∧ d2 = dupdate j (.symlink l) d1 := by
  by_cases hf : isfile ext j d1 = true
  · have hval : symlink_local_jar_to_bento ext l j d1 =
        .error (.destinationExists j) := by
      unfold symlink_local_jar_to_bento
      rw [if_pos hf]
    rw [hval] at h
    cases h
  · cases hl : dlookup j d1 with
    | some e =>
      have hval : symlink_local_jar_to_bento ext l j d1 =
          .error (.symlinkTargetExists j) := by
        unfold symlink_local_jar_to_bento
        rw [if_neg hf, hl]
      rw [hval] at h
      cases h
    | none =>
      have hval : symlink_local_jar_to_bento ext l j d1 =
          .ok (dupdate j (.symlink l) d1) := by
        unfold symlink_local_jar_to_bento
        rw [if_neg hf, hl]
      rw [hval] at h
      exact ⟨rfl, (Except.ok.inj h).symm⟩

/-- Eliminate a successful link-strategy swap: the jar is now a symlink to
the local jar, the backup name passes `isfile`, and no other name changed. -/
theorem swap_jar_link_ok_elim (ext : String → Bool) (l j : String)
    (d d2 : Dir) (hbak : bak_name j ≠ j)
    (h : swap_jar_link ext l d j = .ok d2) :
    dlookup j d2 = some (.symlink l) ∧
      isfile ext (bak_name j) d2 = true ∧
      ∀ n, n ≠ j → n ≠ bak_name j → dlookup n d2 = dlookup n d := by
  unfold swap_jar_link at h
  cases hbr : backup_bento_jar ext j d with
  | error e =>
    rw [hbr] at h
    cases h
  | ok d1 =>
    rw [hbr] at h
    obtain ⟨hn1, hb1, hf1⟩ := backup_ok_elim ext j d d1 hbak hbr
    obtain ⟨_, hd2⟩ := symlink_ok_elim ext l j d1 d2 h
    subst hd2
    refine ⟨?_, ?_, ?_⟩
    · rw [dlookup_dupdate]
      simp
    · have hbd : dlookup (bak_name j) (dupdate j (.symlink l) d1) =
          dlookup (bak_name j) d1 := by
        rw [dlookup_dupdate, if_neg hbak]
      unfold isfile
      rw [hbd]
      exact hb1
    · intro n hnj hnb
      rw [dlookup_dupdate, if_neg hnj]
      exact hf1 n hnj hnb

/-- A jar that is already a symlink to the local build, with a live backup,
is swapped to an extensionally identical directory. -/
theorem swap_jar_link_stable (ext : String → Bool) (l j : String) (d : Dir)
    (hj : dlookup j d = some (.symlink l))
    (hb : isfile ext (bak_name j) d = true) :
    ∃ d2, swap_jar_link ext l d j = .ok d2 ∧ DirEq d2 d := by
  have hl : islink j d = true := by
    unfold islink
    rw [hj]
  have hjd : dlookup j (derase j d) = none := by
    rw [dlookup_derase]
    simp
  have hjf : isfile ext j (derase j d) = false := by
    unfold isfile
    rw [hjd]
  have hback : backup_bento_jar ext j d = .ok (derase j d) := by
    unfold backup_bento_jar
    rw [hl, hb]
    rfl
  have hsym : symlink_local_jar_to_bento ext l j (derase j d) =
      .ok (dupdate j (.symlink l) (derase j d)) := by
    unfold symlink_local_jar_to_bento
    rw [hjf, hjd]
    rfl
  have hrun : swap_jar_link ext l d j =
      .ok (dupdate j (.symlink l) (derase j d)) := by
    unfold swap_jar_link
    rw [hback]
    exact hsym
  refine ⟨_, hrun, ?_⟩
  intro n
  rw [dlookup_dupdate]
  by_cases hn : n = j
  · rw [if_pos hn, hn, hj]
  · rw [if_neg hn, dlookup_derase, if_neg hn]

/-- `_backup_bento_jar` respects directory extensionality. -/
theorem backup_congr (ext : String → Bool) (j : String) (d t : Dir)
    (h : DirEq d t) :
    ExceptDirEq (backup_bento_jar ext j d) (backup_bento_jar ext j t) := by
  unfold backup_bento_jar
  rw [islink_congr h j, isfile_congr ext h (bak_name j), h j]
  by_cases h1 : islink j t = true
  · rw [h1]
    by_cases h2 : isfile ext (bak_name j) t = true
    · rw [h2]
      show DirEq (derase j d) (derase j t)
      exact direq_derase h j
    · rw [if_pos rfl, if_neg h2, if_neg h2]
      rfl
  · rw [if_neg h1, if_neg h1]
    cases hl : dlookup j t with
    | none => rfl
    | some e =>
      have hde : DirEq (dupdate (bak_name j) e (derase j d))
          (dupdate (bak_name j) e (derase j t)) :=
        direq_dupdate (direq_derase h j) (bak_name j) e
      show ExceptDirEq
        (if isfile ext (bak_name j)
            (dupdate (bak_name j) e (derase j d)) = true then
          Except.ok (dupdate (bak_name j) e (derase j d))
        else Except.error (PErr.missingBackup (bak_name j)))
        (if isfile ext (bak_name j)
            (dupdate (bak_name j) e (derase j t)) = true then
          Except.ok (dupdate (bak_name j) e (derase j t))
        else Except.error (PErr.missingBackup (bak_name j)))
      rw [isfile_congr ext hde (bak_name j)]
      by_cases h2 : isfile ext (bak_name j)
          (dupdate (bak_name j) e (derase j t)) = true
      · rw [if_pos h2, if_pos h2]
        exact hde
      · rw [if_neg h2, if_neg h2]
        rfl

/-- The link install respects directory extensionality. -/
theorem symlink_congr (ext : String → Bool) (l j : String) (d1 t1 : Dir)
    (h : DirEq d1 t1) :
    ExceptDirEq (symlink_local_jar_to_bento ext l j d1)
      (symlink_local_jar_to_bento ext l j t1) := by
  unfold symlink_local_jar_to_bento
  rw [isfile_congr ext h j, h j]
  by_cases hf : isfile ext j t1 = true
  · rw [if_pos hf, if_pos hf]
    rfl
  · rw [if_neg hf, if_neg hf]
    cases hl : dlookup j t1 with
    | some e => rfl
    | none =>
      show DirEq (dupdate j (.symlink l) d1) (dupdate j (.symlink l) t1)
      exact direq_dupdate h j (.symlink l)

/-- The per-jar link swap respects directory extensionality. -/
theorem swap_jar_link_congr (ext : String → Bool) (l j : String)
    (d t : Dir) (h : DirEq d t) :
    ExceptDirEq (swap_jar_link ext l d j) (swap_jar_link ext l t j) := by
  unfold swap_jar_link
  have hb := backup_congr ext j d t h
  cases hbd : backup_bento_jar ext j d with
  | error e =>
    cases hbt : backup_bento_jar ext j t with
    | error f =>
      rw [hbd, hbt] at hb
      exact hb
    | ok t1 =>
      rw [hbd, hbt] at hb
      exact False.elim hb
  | ok d1 =>
    cases hbt : backup_bento_jar ext j t with
    | error f =>
      rw [hbd, hbt] at hb
      exact False.elim hb
    | ok t1 =>
      rw [hbd, hbt] at hb
      exact symlink_congr ext l j d1 t1 hb

/-- The reconcile loop respects directory extensionality. -/
theorem reconcile_link_congr (ext : String → Bool) (l : String) :
    ∀ (jars : List String) (d t : Dir), DirEq d t →
      ExceptDirEq (reconcile_link ext l jars d)
        (reconcile_link ext l jars t) := by
  intro jars
  induction jars with
  | nil => intro d t h; exact h
  | cons j rest ih =>
    intro d t h
    unfold reconcile_link
    have hs := swap_jar_link_congr ext l j d t h
    cases hsd : swap_jar_link ext l d j with
    | error e =>
      cases hst : swap_jar_link ext l t j with
      | error f =>
        rw [hsd, hst] at hs
        exact hs
      | ok t1 =>
        rw [hsd, hst] at hs
        exact False.elim hs
    | ok d1 =>
      cases hst : swap_jar_link ext l t j with
      | error f =>
        rw [hsd, hst] at hs
        exact False.elim hs
      | ok t1 =>
        rw [hsd, hst] at hs
        exact ih d1 t1 hs

/-- A successful reconcile run changes only the processed jar names and
their backup names. -/
theorem reconcile_link_frame (ext : String → Bool) (l : String) :
    ∀ (jars : List String) (d d2 : Dir),
      (∀ j ∈ jars, bak_name j ≠ j) →
      reconcile_link ext l jars d = .ok d2 →
      ∀ n, (∀ j ∈ jars, n ≠ j ∧ n ≠ bak_name j) →
        dlookup n d2 = dlookup n d := by
  intro jars
  induction jars with
  | nil =>
    intro d d2 _ h n _
    have hd : d = d2 := Except.ok.inj (show Except.ok d = Except.ok d2 from h)
    rw [← hd]
  | cons j rest ih =>
    intro d d2 hbaks h n hn
    unfold reconcile_link at h
    cases hsd : swap_jar_link ext l d j with
    | error e =>
      rw [hsd] at h
      cases h
    | ok d1 =>
      rw [hsd] at h
      have step := (swap_jar_link_ok_elim ext l j d d1
        (hbaks j (List.mem_cons_self j rest)) hsd).2.2
      have tail := ih d1 d2
        (fun j2 hj2 => hbaks j2 (List.mem_cons_of_mem j hj2)) h n
        (fun j2 hj2 => hn j2 (List.mem_cons_of_mem j hj2))
      rw [tail]
      exact step n (hn j (List.mem_cons_self j rest)).1
        (hn j (List.mem_cons_self j rest)).2

/-- C1 amended: the link-strategy reconcile loop is idempotent.  If the jar
names and their `.bak` companions are pairwise distinct and the first run
succeeds, a second run over the same jars succeeds and produces exactly the
directory state left by the first run; in particular every entry present
after the first run — including every `.bak` backup — is preserved
unchanged by the second run.  Both restrictions are forced by the
counterexample: the copy-strategy variant's second run overwrites the
`.bak` with new content, and a `.bak` that pre-dates the first run is not
protected in either variant — even the link variant's first run renames a
regular-file jar over a stale pre-existing `.bak`. -/
theorem reconcile_link_idempotent (ext : String → Bool) (local_jar : String)
    (jars : List String) (d s1 : Dir)
    (hnames : (jars ++ jars.map bak_name).Nodup)
    (hrun1 : reconcile_link ext local_jar jars d = .ok s1) :
    ∃ s2, reconcile_link ext local_jar jars s1 = .ok s2 ∧ DirEq s2 s1 ∧
      ∀ n e, dlookup n s1 = some e → dlookup n s2 = some e := by
  induction jars generalizing d s1 with
  | nil =>
    have hs : d = s1 :=
      Except.ok.inj (show Except.ok d = Except.ok s1 from hrun1)
    subst hs
    exact ⟨d, rfl, direq_refl d, fun n e he => he⟩
  | cons j rest ih =>
    have hdisj : (j :: rest).Disjoint ((j :: rest).map bak_name) :=
      List.disjoint_of_nodup_append hnames
    have hnames2 : (rest ++ rest.map bak_name).Nodup := by
      have hsub : (rest ++ rest.map bak_name).Sublist
          ((j :: rest) ++ (j :: rest).map bak_name) := by
        rw [List.map_cons, List.cons_append]
        refine List.Sublist.trans ?_ (List.sublist_cons_self j _)
        exact List.Sublist.append_left
          (List.sublist_cons_self (bak_name j) _) rest
      exact hnames.sublist hsub
    have hbakj : bak_name j ≠ j := by
      intro hc
      have hmem2 : bak_name j ∈ List.map bak_name (j :: rest) :=
        List.mem_map_of_mem bak_name (List.mem_cons_self j rest)
      rw [hc] at hmem2
      exact hdisj (List.mem_cons_self j rest) hmem2
    have hjrest : j ∉ rest := by
      have hnd1 := (List.nodup_append.mp hnames).1
      exact (List.nodup_cons.mp hnd1).1
    have hjbaks : ∀ j2 ∈ rest, j ≠ bak_name j2 := by
      intro j2 hj2 hc
      have hmem2 : bak_name j2 ∈ List.map bak_name (j :: rest) :=
        List.mem_map_of_mem bak_name (List.mem_cons_of_mem j hj2)
      rw [← hc] at hmem2
      exact hdisj (List.mem_cons_self j rest) hmem2
    have hbrest : bak_name j ∉ rest := by
      intro hc
      exact hdisj (List.mem_cons_of_mem j hc)
        (List.mem_map_of_mem bak_name (List.mem_cons_self j rest))
    have hbbaks : ∀ j2 ∈ rest, bak_name j ≠ bak_name j2 := by
      intro j2 hj2 hc
      have hnd2 : ((j :: rest).map bak_name).Nodup :=
        (List.nodup_append.mp hnames).2.1
      rw [List.map_cons] at hnd2
      have hmem2 : bak_name j ∈ List.map bak_name rest := by
        rw [hc]
        exact List.mem_map_of_mem bak_name hj2
      exact (List.nodup_cons.mp hnd2).1 hmem2
    have hbaksne : ∀ j2 ∈ (j :: rest), bak_name j2 ≠ j2 := by
      intro j2 hj2 hc
      have hmem2 : bak_name j2 ∈ List.map bak_name (j :: rest) :=
        List.mem_map_of_mem bak_name hj2
      rw [hc] at hmem2
      exact hdisj hj2 hmem2
    unfold reconcile_link at hrun1
    cases hsd : swap_jar_link ext local_jar d j with
    | error e =>
      rw [hsd] at hrun1
      cases hrun1
    | ok t =>
      rw [hsd] at hrun1
      have hrun1' : reconcile_link ext local_jar rest t = .ok s1 := hrun1
      obtain ⟨hjt, hbt, _⟩ := swap_jar_link_ok_elim ext local_jar j d t
        hbakj hsd
      have hfr := reconcile_link_frame ext local_jar rest t s1
        (fun j2 hj2 => hbaksne j2 (List.mem_cons_of_mem j hj2)) hrun1'
      have hjs1 : dlookup j s1 = dlookup j t :=
        hfr j (fun j2 hj2 => ⟨fun hc => hjrest (hc ▸ hj2),
          fun hc => hjbaks j2 hj2 hc⟩)
      have hbs1 : dlookup (bak_name j) s1 = dlookup (bak_name j) t :=
        hfr (bak_name j) (fun j2 hj2 => ⟨fun hc => hbrest (hc ▸ hj2),
          fun hc => hbbaks j2 hj2 hc⟩)
      have hjs1' : dlookup j s1 = some (.symlink local_jar) := by
        rw [hjs1, hjt]
      have hbs1' : isfile ext (bak_name j) s1 = true := by
        unfold isfile at hbt ⊢
        rw [hbs1]
        exact hbt
      obtain ⟨u, hu, hue⟩ := swap_jar_link_stable ext local_jar j s1
        hjs1' hbs1'
      obtain ⟨s2, hs2, hde, _⟩ := ih t s1 hnames2 hrun1'
      have hcong := reconcile_link_congr ext local_jar rest u s1 hue
      cases hru : reconcile_link ext local_jar rest u with
      | error e =>
        rw [hru, hs2] at hcong
        exact False.elim hcong
      | ok s2' =>
        rw [hru, hs2] at hcong
        have hfinal : DirEq s2' s1 := direq_trans hcong hde
        refine ⟨s2', ?_, hfinal, ?_⟩
        · unfold reconcile_link
          rw [hu]
          exact hru
        · intro n e he
          rw [hfinal n]
          exact he

/-- Witness for `reconcile_link_idempotent` on a concrete clean directory. -/
theorem reconcile_link_idempotent_witness :
    ((["kiji-modeling-1.2.3.jar"] ++
        ["kiji-modeling-1.2.3.jar"].map bak_name).Nodup ∧
      reconcile_link (fun _ => false)
          "/w/target/kiji-modeling-1.2.3-SNAPSHOT.jar"
          ["kiji-modeling-1.2.3.jar"]
          [("kiji-modeling-1.2.3.jar", .file "bundled")] =
        .ok [("kiji-modeling-1.2.3.bak", .file "bundled"),
             ("kiji-modeling-1.2.3.jar",
               .symlink "/w/target/kiji-modeling-1.2.3-SNAPSHOT.jar")]) ∧
    (∃ s2, reconcile_link (fun _ => false)
          "/w/target/kiji-modeling-1.2.3-SNAPSHOT.jar"
          ["kiji-modeling-1.2.3.jar"]
          [("kiji-modeling-1.2.3.bak", .file "bundled"),
           ("kiji-modeling-1.2.3.jar",
             .symlink "/w/target/kiji-modeling-1.2.3-SNAPSHOT.jar")] =
        .ok s2 ∧
      DirEq s2 [("kiji-modeling-1.2.3.bak", .file "bundled"),
        ("kiji-modeling-1.2.3.jar",
          .symlink "/w/target/kiji-modeling-1.2.3-SNAPSHOT.jar")] ∧
      ∀ n e, dlookup n [("kiji-modeling-1.2.3.bak", .file "bundled"),
        ("kiji-modeling-1.2.3.jar",
          .symlink "/w/target/kiji-modeling-1.2.3-SNAPSHOT.jar")] = some e →
        dlookup n s2 = some e) :=
  ⟨⟨by decide, by decide⟩,
    reconcile_link_idempotent (fun _ => false)
      "/w/target/kiji-modeling-1.2.3-SNAPSHOT.jar"
      ["kiji-modeling-1.2.3.jar"]
      [("kiji-modeling-1.2.3.jar", .file "bundled")]
      [("kiji-modeling-1.2.3.bak", .file "bundled"),
       ("kiji-modeling-1.2.3.jar",
         .symlink "/w/target/kiji-modeling-1.2.3-SNAPSHOT.jar")]
      (by decide) (by decide)⟩

end BuildScripts
